import Mathlib

/-!
Futures of cs477: shared state, promise and future handles, `then`,
`when_all`, `do_while`.  A shallow embedding of `include/future.h`, and of
`socket::send` of `include/net.inl`.

* A call either returns, raises a C++ exception, blocks for ever (the model is
  sequential: nobody else can resolve a state the caller waits for), tries to
  lock a mutex the caller already holds, or dereferences a null or deleted
  pointer.  `Res` records which.
* `std::exception_ptr` is `Option E`; `none` is the null pointer.  What
  `std::move` leaves in one is not fixed by the C++ standard: `wait` and `get`
  take it to be null, `wait_with` and `get_with` take it as a parameter, and
  what a second `wait()`/`get()` delivers is settled on those.
* `std::atomic<int>` is an `Int` kept in the 32 bit range by `wrap32`.
  `Heap.release` is one `release()` run without interference; `release_test`
  and `release_dec` are its two accesses, for two threads that release at
  the same time.
* The object a `std::move` leaves behind is the default-constructed one.
* Shared states live in a heap addressed by natural numbers; a handle
  (`future`, `promise`) holds `Option Nat`, `none` being `nullptr`.  States of
  void futures are states of value type `Unit`.
* `mtx` is the mutex of a state: every method that takes a `lock_guard` on it
  ends with `Res.relock` when the caller already holds it, since mutex.h, which
  would say what happens then, is not part of the sources.
* A callable passed in by the user (`fn` of `then`, `body` of `do_while`) is a
  function of the model; calls of it are counted where the source calls it.
-/

namespace cs477

/-- Outcome of a call: normal return, thrown exception, blocked for ever on the
condition variable, second lock of a mutex already held by the caller, or a
dereference of a null or deleted state. -/
inductive Res (E α : Type) where
  | ret (a : α)
  | raise (e : E)
  | block
  | relock
  | fault
  deriving DecidableEq, Repr

/-- Sequencing of two statements: the second runs only when the first returned. -/
def Res.seq {E α β σ : Type} (r : Res E α × σ) (k : α → σ → Res E β × σ) : Res E β × σ :=
  match r with
  | (Res.ret a, s) => k a s
  | (Res.raise e, s) => (Res.raise e, s)
  | (Res.block, s) => (Res.block, s)
  | (Res.relock, s) => (Res.relock, s)
  | (Res.fault, s) => (Res.fault, s)

/-- Arithmetic of `std::atomic<int>`: two's complement, 32 bits. -/
def wrap32 (x : Int) : Int := (x + 2147483648) % 4294967296 - 2147483648

namespace details

/-- The anonymous enum of `basic_shared_state`. -/
inductive completion where
  | not_ready
  | has_value
  | has_error
  deriving DecidableEq, Repr

/-- Class `details::basic_shared_state`: `ref`, `state`, `ex`, and the mutex
(`mtx = true` while a `lock_guard` on it is alive). -/
structure basic_shared_state (E : Type) where
  ref : Int
  state : completion
  ex : Option E
  mtx : Bool
  deriving DecidableEq, Repr

/-- Class `details::basic_shared_state_with_value<T>`. -/
structure basic_shared_state_with_value (E T : Type) extends basic_shared_state E where
  value : T
  deriving DecidableEq, Repr

/-- Constructor `basic_shared_state()`: `ref(1), state(not_ready)`. -/
def basic_shared_state.ctor {E : Type} : basic_shared_state E :=
  { ref := 1, state := completion.not_ready, ex := none, mtx := false }

/-- Method `addref`: `++ref`. -/
def basic_shared_state.addref {E : Type} (s : basic_shared_state E) : basic_shared_state E :=
  { s with ref := wrap32 (s.ref + 1) }

/-- Method `set_exception`: the `state != not_ready` test has an empty body, so
the assignment happens in every state. -/
def basic_shared_state.set_exception {E : Type} (s : basic_shared_state E) (ptr : Option E) :
    Res E Unit × basic_shared_state E :=
  if s.mtx then (Res.relock, s)
  else (Res.ret (), { s with state := completion.has_error, ex := ptr })

/-- Method `set()` of the void state. -/
def basic_shared_state.set {E : Type} (s : basic_shared_state E) :
    Res E Unit × basic_shared_state E :=
  if s.mtx then (Res.relock, s)
  else (Res.ret (), { s with state := completion.has_value })

/-- Method `wait`: loops on the condition variable while `not_ready`, then
moves `ex` out and rethrows it when it is not null.  The moved-from `ex` is
taken to be null here; `wait_with` leaves it open. -/
def basic_shared_state.wait {E : Type} (s : basic_shared_state E) :
    Res E Unit × basic_shared_state E :=
  if s.mtx then (Res.relock, s)
  else if s.state = completion.not_ready then (Res.block, s)
  else
    match s.ex with
    | some e => (Res.raise e, { s with ex := none })
    | none => (Res.ret (), s)

/-- Constructor `basic_shared_state_with_value()`. -/
def basic_shared_state_with_value.ctor {E T : Type} [Inhabited T] :
    basic_shared_state_with_value E T :=
  { tobasic_shared_state := basic_shared_state.ctor, value := default }

/-- Inherited `addref`. -/
def basic_shared_state_with_value.addref {E T : Type} (s : basic_shared_state_with_value E T) :
    basic_shared_state_with_value E T :=
  { s with tobasic_shared_state := s.tobasic_shared_state.addref }

/-- Inherited `set_exception`. -/
def basic_shared_state_with_value.set_exception {E T : Type}
    (s : basic_shared_state_with_value E T) (ptr : Option E) :
    Res E Unit × basic_shared_state_with_value E T :=
  ((s.tobasic_shared_state.set_exception ptr).1,
    { s with tobasic_shared_state := (s.tobasic_shared_state.set_exception ptr).2 })

/-- Inherited `wait`. -/
def basic_shared_state_with_value.wait {E T : Type} (s : basic_shared_state_with_value E T) :
    Res E Unit × basic_shared_state_with_value E T :=
  (s.tobasic_shared_state.wait.1, { s with tobasic_shared_state := s.tobasic_shared_state.wait.2 })

/-- Method `set(T &&val)`: as `set_exception`, the guard has an empty body. -/
def basic_shared_state_with_value.set {E T : Type} (s : basic_shared_state_with_value E T)
    (val : T) : Res E Unit × basic_shared_state_with_value E T :=
  if s.mtx then (Res.relock, s)
  else (Res.ret (), { s with state := completion.has_value, value := val })

/-- Method `get`: as `wait`, then `return std::move(value)`.  The moved-from
`ex` is taken to be null here; `get_with` leaves it open. -/
def basic_shared_state_with_value.get {E T : Type} [Inhabited T]
    (s : basic_shared_state_with_value E T) : Res E T × basic_shared_state_with_value E T :=
  if s.mtx then (Res.relock, s)
  else if s.state = completion.not_ready then (Res.block, s)
  else
    match s.ex with
    | some e => (Res.raise e, { s with ex := none })
    | none => (Res.ret s.value, { s with value := default })

/-- Method `shared_state<T, Fn>::execute`, given the outcome `r` of `fn()`:
`try { auto val = fn(); set(std::move(val)); } catch (...) { set_exception(...); }`. -/
def shared_state.execute {E T : Type} (s : basic_shared_state_with_value E T) (r : Res E T) :
    Res E Unit × basic_shared_state_with_value E T :=
  match r with
  | Res.ret val => s.set val
  | Res.raise e => s.set_exception (some e)
  | Res.block => (Res.block, s)
  | Res.relock => (Res.relock, s)
  | Res.fault => (Res.fault, s)

/-- Method `shared_state<void, Fn>::execute`, given the outcome `r` of `fn()`. -/
def shared_state.execute_void {E : Type} (s : basic_shared_state E) (r : Res E Unit) :
    Res E Unit × basic_shared_state E :=
  match r with
  | Res.ret _ => s.set
  | Res.raise e => s.set_exception (some e)
  | Res.block => (Res.block, s)
  | Res.relock => (Res.relock, s)
  | Res.fault => (Res.fault, s)

end details

open details

/-- The free store holding the shared states of one value type.  `freed` lists
the addresses `delete this` ran on, `warnings` the exceptions the destructor
printed its "uncaught exception" warning for. -/
structure Heap (E T : Type) where
  cells : Nat → Option (basic_shared_state_with_value E T)
  next : Nat
  freed : List Nat
  warnings : List E

/-- A store with nothing allocated. -/
def Heap.empty {E T : Type} : Heap E T :=
  { cells := fun _ => none, next := 0, freed := [], warnings := [] }

/-- Overwrite one cell. -/
def Heap.write {E T : Type} (h : Heap E T) (a : Nat)
    (c : Option (basic_shared_state_with_value E T)) : Heap E T :=
  { h with cells := fun q => if q = a then c else h.cells q }

/-- Expression `new details::basic_shared_state_with_value<T>()`. -/
def Heap.alloc {E T : Type} [Inhabited T] (h : Heap E T) : Nat × Heap E T :=
  (h.next, { h.write h.next (some basic_shared_state_with_value.ctor) with next := h.next + 1 })

/-- Call of a method through a pointer: `state->m(...)`. -/
def Heap.call {E T α : Type} (h : Heap E T) (state : Option Nat)
    (m : basic_shared_state_with_value E T →
      Res E α × basic_shared_state_with_value E T) : Res E α × Heap E T :=
  match state with
  | none => (Res.fault, h)
  | some a =>
    match h.cells a with
    | none => (Res.fault, h)
    | some c => ((m c).1, h.write a (some (m c).2))

/-- Statement `delete this`: the destructor prints a warning when `ex` is not
null, then the cell is gone. -/
def Heap.delete {E T : Type} (h : Heap E T) (a : Nat) (c : basic_shared_state_with_value E T) :
    Heap E T :=
  { h.write a none with
    freed := h.freed ++ [a]
    warnings := h.warnings ++ c.ex.toList }

/-- Method `release` called through a pointer:
`if (ref == 1) { delete this; return; } --ref;`. -/
def Heap.release {E T : Type} (h : Heap E T) (state : Option Nat) : Res E Unit × Heap E T :=
  match state with
  | none => (Res.fault, h)
  | some a =>
    match h.cells a with
    | none => (Res.fault, h)
    | some c =>
      if c.ref = 1 then (Res.ret (), h.delete a c)
      else (Res.ret (), h.write a (some { c with ref := wrap32 (c.ref - 1) }))

/-- Class `future<T>`: the `state` pointer. -/
structure future where
  state : Option Nat
  deriving DecidableEq, Repr

/-- Class `promise<T>`: the `state` pointer. -/
structure promise where
  state : Option Nat
  deriving DecidableEq, Repr

/-- Function `details::make_future`: `f.state = state; f.state->addref();`. -/
def details.make_future {E T : Type} (h : Heap E T) (state : Option Nat) :
    Res E future × Heap E T :=
  Res.seq (h.call state fun c => (Res.ret (), c.addref)) fun _ h1 => (Res.ret ⟨state⟩, h1)

/-- Destructor of `future<T>`: `if (state) state->release();`. -/
def future.dtor {E T : Type} (h : Heap E T) (f : future) : Res E Unit × Heap E T :=
  match f.state with
  | none => (Res.ret (), h)
  | some a => h.release (some a)

/-- Method `future<T>::wait`: the null test has an empty body. -/
def future.wait {E T : Type} (h : Heap E T) (f : future) : Res E Unit × Heap E T :=
  h.call f.state fun c => c.wait

/-- Method `future<T>::get`: the null test has an empty body. -/
def future.get {E T : Type} [Inhabited T] (h : Heap E T) (f : future) : Res E T × Heap E T :=
  h.call f.state fun c => c.get

/-- Constructor `promise()`: `state(new details::basic_shared_state_with_value<T>())`. -/
def promise.ctor {E T : Type} [Inhabited T] (h : Heap E T) : promise × Heap E T :=
  (⟨some h.alloc.1⟩, h.alloc.2)

/-- Destructor of `promise<T>`: `if (state) state->release();`. -/
def promise.dtor {E T : Type} (h : Heap E T) (p : promise) : Res E Unit × Heap E T :=
  match p.state with
  | none => (Res.ret (), h)
  | some a => h.release (some a)

/-- Method `promise<T>::set`. -/
def promise.set {E T : Type} (h : Heap E T) (p : promise) (value : T) : Res E Unit × Heap E T :=
  h.call p.state fun c => c.set value

/-- Method `promise<T>::set_exception`. -/
def promise.set_exception {E T : Type} (h : Heap E T) (p : promise) (err : Option E) :
    Res E Unit × Heap E T :=
  h.call p.state fun c => c.set_exception err

/-- Method `promise<T>::get_future`. -/
def promise.get_future {E T : Type} (h : Heap E T) (p : promise) : Res E future × Heap E T :=
  details.make_future h p.state

/-- Function `make_ready_future(T value)`:
`new`, `make_future(state)`, `state->set(...)`, `state->release()`, `return f`. -/
def make_ready_future {E T : Type} [Inhabited T] (h : Heap E T) (value : T) :
    Res E future × Heap E T :=
  Res.seq (details.make_future h.alloc.2 (some h.alloc.1)) fun f h1 =>
  Res.seq (h1.call (some h.alloc.1) fun c => c.set value) fun _ h2 =>
  Res.seq (h2.release (some h.alloc.1)) fun _ h3 => (Res.ret f, h3)

/-- Calls made by the library that the claims count. -/
inductive Event where
  | get (f : future)
  | set
  | set_exception
  deriving DecidableEq, Repr

/-- The `while (first != last)` loop of `when_all` over the range, with the
locals `list` and `ex`; the second component of the state lists the calls made. -/
def when_all_loop {E T : Type} [Inhabited T] :
    List future → List T → Option E → Heap E T × List Event →
      Res E (List T × Option E) × (Heap E T × List Event)
  | [], list, ex, w => (Res.ret (list, ex), w)
  | first :: rest, list, ex, w =>
    match future.get w.1 first with
    | (Res.ret v, h1) => when_all_loop rest (list ++ [v]) ex (h1, w.2 ++ [Event.get first])
    | (Res.raise e, h1) => when_all_loop rest list (some e) (h1, w.2 ++ [Event.get first])
    | (Res.block, h1) => (Res.block, (h1, w.2 ++ [Event.get first]))
    | (Res.relock, h1) => (Res.relock, (h1, w.2 ++ [Event.get first]))
    | (Res.fault, h1) => (Res.fault, (h1, w.2 ++ [Event.get first]))

/-- What a call of `when_all` leaves: its outcome, the store of the input
states, the store of the result state, and the calls it made, in order. -/
structure WhenAllRun (E T : Type) where
  result : Res E future
  inputs : Heap E T
  out : Heap E (List T)
  trace : List Event

/-- Function `when_all(first, last)`: a local promise, `get_future`, the loop,
`set_exception(ex)` or `set(list)`, `return f`, and the destructor of `p`. -/
def when_all {E T : Type} [Inhabited T] (out : Heap E (List T)) (inp : Heap E T)
    (range : List future) : WhenAllRun E T :=
  match promise.get_future (promise.ctor out).2 (promise.ctor out).1 with
  | (Res.ret f, o1) =>
    match when_all_loop range [] none (inp, []) with
    | (Res.ret (_, some e), (i1, tr)) =>
      let r := Res.seq (promise.set_exception o1 (promise.ctor out).1 (some e)) fun _ o2 =>
        Res.seq (promise.dtor o2 (promise.ctor out).1) fun _ o3 => (Res.ret f, o3)
      { result := r.1, inputs := i1, out := r.2, trace := tr ++ [Event.set_exception] }
    | (Res.ret (list, none), (i1, tr)) =>
      let r := Res.seq (promise.set o1 (promise.ctor out).1 list) fun _ o2 =>
        Res.seq (promise.dtor o2 (promise.ctor out).1) fun _ o3 => (Res.ret f, o3)
      { result := r.1, inputs := i1, out := r.2, trace := tr ++ [Event.set] }
    | (Res.raise e, (i1, tr)) => { result := Res.raise e, inputs := i1, out := o1, trace := tr }
    | (Res.block, (i1, tr)) => { result := Res.block, inputs := i1, out := o1, trace := tr }
    | (Res.relock, (i1, tr)) => { result := Res.relock, inputs := i1, out := o1, trace := tr }
    | (Res.fault, (i1, tr)) => { result := Res.fault, inputs := i1, out := o1, trace := tr }
  | (Res.raise e, o1) => { result := Res.raise e, inputs := inp, out := o1, trace := [] }
  | (Res.block, o1) => { result := Res.block, inputs := inp, out := o1, trace := [] }
  | (Res.relock, o1) => { result := Res.relock, inputs := inp, out := o1, trace := [] }
  | (Res.fault, o1) => { result := Res.fault, inputs := inp, out := o1, trace := [] }

/-- Function `details::queue_work(basic_shared_state *state)`:
`state->addref()` and the submission of the callback with `state` as context.
The second component lists the contexts submitted to the pool, oldest first. -/
def details.queue_work {E T : Type} (w : Heap E T × List Nat) (state : Option Nat) :
    Res E Unit × (Heap E T × List Nat) :=
  match w.1.call state fun c => (Res.ret (), c.addref) with
  | (Res.ret _, h1) => (Res.ret (), (h1, w.2 ++ state.toList))
  | (Res.raise e, h1) => (Res.raise e, (h1, w.2))
  | (Res.block, h1) => (Res.block, (h1, w.2))
  | (Res.relock, h1) => (Res.relock, (h1, w.2))
  | (Res.fault, h1) => (Res.fault, (h1, w.2))

/-- The callback `details::queue_work` submits, run by a pool thread on the
context `ctx`: `state->execute(); state->release();`, for a
`shared_state<T, Fn>` whose `fn()` has the outcome `r`. -/
def details.queue_work_callback {E T : Type} (h : Heap E T) (ctx : Nat) (r : Res E T) :
    Res E Unit × Heap E T :=
  Res.seq (h.call (some ctx) fun c => shared_state.execute c r) fun _ h1 =>
    h1.release (some ctx)

/-- Modelled from the spec: the template `queue_work(Fn fn)`, declared in
future.h and defined in the absent future.inl.  It "allocates a SharedState
parameterized by fn, submits an execute() task to the pool" and "returns a
Future referencing that state immediately"; the creator's reference is given
up as `make_ready_future` does. -/
def queue_work {E T : Type} [Inhabited T] (w : Heap E T × List Nat) :
    Res E future × (Heap E T × List Nat) :=
  match details.make_future w.1.alloc.2 (some w.1.alloc.1) with
  | (Res.ret f, h1) =>
    Res.seq (details.queue_work (h1, w.2) (some w.1.alloc.1)) fun _ w2 =>
      match w2.1.release (some w.1.alloc.1) with
      | (Res.ret _, h3) => (Res.ret f, (h3, w2.2))
      | (Res.raise e, h3) => (Res.raise e, (h3, w2.2))
      | (Res.block, h3) => (Res.block, (h3, w2.2))
      | (Res.relock, h3) => (Res.relock, (h3, w2.2))
      | (Res.fault, h3) => (Res.fault, (h3, w2.2))
  | (Res.raise e, h1) => (Res.raise e, (h1, w.2))
  | (Res.block, h1) => (Res.block, (h1, w.2))
  | (Res.relock, h1) => (Res.relock, (h1, w.2))
  | (Res.fault, h1) => (Res.fault, (h1, w.2))

/-- Modelled from the spec: `lock_guard<> lock(state->mtx)` (mutex.h is
absent), the "standard acquire". -/
def Heap.lock {E T : Type} (h : Heap E T) (state : Option Nat) : Res E Unit × Heap E T :=
  h.call state fun c => if c.mtx then (Res.relock, c) else (Res.ret (), { c with mtx := true })

/-- Modelled from the spec: the destructor of the `lock_guard` (mutex.h is
absent), the "standard release"; a state deleted in between stays deleted. -/
def Heap.unlock {E T : Type} (h : Heap E T) (state : Option Nat) : Heap E T :=
  match state with
  | none => h
  | some a =>
    match h.cells a with
    | none => h
    | some c => h.write a (some { c with mtx := false })

/-- A continuation passed to `then`: called with the antecedent future, it acts
on the store of the antecedent and returns a value or throws. -/
abbrev Continuation (E T U : Type) := future → Heap E T → Res E U × Heap E T

/-- Everything `then` and its deferred task touch: the store of the
antecedent, the store of the futures `then` returns, the contexts submitted to
the pool, and the number of calls of the continuation made so far. -/
structure World (E T U : Type) where
  ante : Heap E T
  out : Heap E U
  pool : List Nat
  invoked : Nat

/-- Expression `state->state` through the pointer of a handle. -/
def Heap.completion_at {E T : Type} (h : Heap E T) (state : Option Nat) : Option completion :=
  state.bind fun a => (h.cells a).map fun c => c.state

/-- Method `future<T>::then(fn)` (`then` is a keyword of Lean).  With the lock
on the antecedent state held: when the state is `not_ready`, `queue_work` of
the lambda that captured the future; otherwise
`make_ready_future(fn(std::move(*this)))`.  The lock is given back on return
and when an exception leaves the method.  `invoked` counts the calls of `fn`.
The pointer left in `*this` is not followed up. -/
def future.then_ {E T U : Type} [Inhabited U] (w : World E T U) (self : future)
    (fn : Continuation E T U) : Res E future × World E T U :=
  match w.ante.lock self.state with
  | (Res.ret _, a1) =>
    if a1.completion_at self.state = some completion.not_ready then
      match queue_work (w.out, w.pool) with
      | (Res.ret f, (o1, pool1)) =>
        (Res.ret f, { w with ante := a1.unlock self.state, out := o1, pool := pool1 })
      | (Res.raise e, (o1, pool1)) =>
        (Res.raise e, { w with ante := a1.unlock self.state, out := o1, pool := pool1 })
      | (Res.block, (o1, pool1)) => (Res.block, { w with ante := a1, out := o1, pool := pool1 })
      | (Res.relock, (o1, pool1)) => (Res.relock, { w with ante := a1, out := o1, pool := pool1 })
      | (Res.fault, (o1, pool1)) => (Res.fault, { w with ante := a1, out := o1, pool := pool1 })
    else
      match fn self a1 with
      | (Res.ret v, a2) =>
        match make_ready_future w.out v with
        | (Res.ret f, o1) =>
          (Res.ret f, { w with ante := a2.unlock self.state, out := o1, invoked := w.invoked + 1 })
        | (Res.raise e, o1) =>
          (Res.raise e,
            { w with ante := a2.unlock self.state, out := o1, invoked := w.invoked + 1 })
        | (Res.block, o1) => (Res.block, { w with ante := a2, out := o1, invoked := w.invoked + 1 })
        | (Res.relock, o1) =>
          (Res.relock, { w with ante := a2, out := o1, invoked := w.invoked + 1 })
        | (Res.fault, o1) => (Res.fault, { w with ante := a2, out := o1, invoked := w.invoked + 1 })
      | (Res.raise e, a2) =>
        (Res.raise e, { w with ante := a2.unlock self.state, invoked := w.invoked + 1 })
      | (Res.block, a2) => (Res.block, { w with ante := a2, invoked := w.invoked + 1 })
      | (Res.relock, a2) => (Res.relock, { w with ante := a2, invoked := w.invoked + 1 })
      | (Res.fault, a2) => (Res.fault, { w with ante := a2, invoked := w.invoked + 1 })
  | (Res.raise e, a1) => (Res.raise e, { w with ante := a1 })
  | (Res.block, a1) => (Res.block, { w with ante := a1 })
  | (Res.relock, a1) => (Res.relock, { w with ante := a1 })
  | (Res.fault, a1) => (Res.fault, { w with ante := a1 })

/-- The lambda `then` queues, `f.wait(); return fn(std::move(f));`, with `f`
the captured antecedent: its outcome, the store of the antecedent afterwards,
and the number of calls of `fn` it made. -/
def future.then_lambda {E T U : Type} (ante : Heap E T) (f : future) (fn : Continuation E T U) :
    Res E U × Heap E T × Nat :=
  match future.wait ante f with
  | (Res.ret _, a1) => ((fn f a1).1, (fn f a1).2, 1)
  | (Res.raise e, a1) => (Res.raise e, a1, 0)
  | (Res.block, a1) => (Res.block, a1, 0)
  | (Res.relock, a1) => (Res.relock, a1, 0)
  | (Res.fault, a1) => (Res.fault, a1, 0)

/-- The task `then` queued, run by a pool thread on the context `ctx`:
`execute()` runs the lambda and records its outcome in the state at `ctx`,
then `release()`. -/
def future.then_task {E T U : Type} (w : World E T U) (ctx : Nat) (f : future)
    (fn : Continuation E T U) : Res E Unit × World E T U :=
  ((details.queue_work_callback w.out ctx (future.then_lambda w.ante f fn).1).1,
    { w with
      ante := (future.then_lambda w.ante f fn).2.1
      out := (details.queue_work_callback w.out ctx (future.then_lambda w.ante f fn).1).2
      invoked := w.invoked + (future.then_lambda w.ante f fn).2.2 })

/-- The state a future refers to, when it has one that is allocated. -/
def Heap.deref {E T : Type} (h : Heap E T) (f : future) :
    Option (basic_shared_state_with_value E T) :=
  f.state.bind h.cells

/-- The value `get` returns on the state of `f` as it is in `h`: the stored
value when no exception is stored. -/
def got_value {E T : Type} (h : Heap E T) (f : future) : Option T :=
  (h.deref f).bind fun c => match c.ex with
    | some _ => none
    | none => some c.value

/-- The exception `get` raises on the state of `f` as it is in `h`. -/
def got_error {E T : Type} (h : Heap E T) (f : future) : Option E :=
  (h.deref f).bind fun c => c.ex

/-- A future whose state is allocated, unlocked and no longer `not_ready`. -/
def resolved {E T : Type} (h : Heap E T) (f : future) : Prop :=
  ∃ a c, f.state = some a ∧ h.cells a = some c ∧ c.mtx = false ∧
    c.state ≠ completion.not_ready

/-- A future whose state is allocated, unlocked and holds the value `v`. -/
def resolved_with_value {E T : Type} (h : Heap E T) (f : future) (v : T) : Prop :=
  ∃ a c, f.state = some a ∧ h.cells a = some c ∧ c.mtx = false ∧
    c.state = completion.has_value ∧ c.ex = none ∧ c.value = v

/-- A future whose state is allocated, unlocked and holds the error `e`. -/
def resolved_with_error {E T : Type} (h : Heap E T) (f : future) (e : E) : Prop :=
  ∃ a c, f.state = some a ∧ h.cells a = some c ∧ c.mtx = false ∧
    c.state = completion.has_error ∧ c.ex = some e

/-- The update of the local `ex` of `when_all` by the outcome of one `get`:
a caught exception replaces what was kept. -/
def keep_last {E : Type} (acc : Option E) (o : Option E) : Option E :=
  match o with
  | some e => some e
  | none => acc

/-- Sample: a state resolved with the value 1. -/
def sample_state : basic_shared_state_with_value Nat Nat :=
  { ref := 1, state := completion.has_value, ex := none, mtx := false, value := 1 }

/-- Sample: two promises, set to 10 and 20. -/
def sample_values : Heap Nat Nat :=
  (promise.set (promise.ctor (promise.set (promise.ctor Heap.empty).2 ⟨some 0⟩ 10).2).2
    ⟨some 1⟩ 20).2

/-- Sample: three promises, set to 10, failed with 7, set to 30. -/
def sample_failing : Heap Nat Nat :=
  (promise.set (promise.ctor (promise.set_exception (promise.ctor sample_values).2 ⟨some 2⟩
    (some 7)).2).2 ⟨some 3⟩ 30).2

/-- Sample: one promise in the antecedent store, nothing else. -/
def sample_world : World Nat Nat Nat :=
  { ante := (promise.ctor Heap.empty).2, out := Heap.empty, pool := [], invoked := 0 }

/-- Sample continuation: `return f.get();`. -/
def fn_get : Continuation Nat Nat Nat := fun f h => future.get h f

/-- Sample continuation: `return 5;`, the future is not touched. -/
def fn_five : Continuation Nat Nat Nat := fun _ h => (Res.ret 5, h)

/-- The world after `self.then(fn)`, once the antecedent promise got `err`
through `set_exception`. -/
def then_and_fail (fn : Continuation Nat Nat Nat) (err : Nat) : World Nat Nat Nat :=
  { (future.then_ sample_world ⟨some 0⟩ fn).2 with
    ante := (promise.set_exception (future.then_ sample_world ⟨some 0⟩ fn).2.ante ⟨some 0⟩
      (some err)).2 }

/-- The world after `self.then(fn)`, once the antecedent promise got `v`
through `set`. -/
def then_and_set (fn : Continuation Nat Nat Nat) (v : Nat) : World Nat Nat Nat :=
  { (future.then_ sample_world ⟨some 0⟩ fn).2 with
    ante := (promise.set (future.then_ sample_world ⟨some 0⟩ fn).2.ante ⟨some 0⟩ v).2 }

/-- Sample: the world in which the antecedent promise failed with 7 before `then`. -/
def failed_world : World Nat Nat Nat :=
  { sample_world with ante := (promise.set_exception sample_world.ante ⟨some 0⟩ (some 7)).2 }

/-- The two calls that consume a shared state through a future. -/
inductive Consume where
  | wait
  | get
  deriving DecidableEq, Repr

/-- Forget the value a call returned. -/
def Res.void {E α : Type} (r : Res E α) : Res E Unit :=
  match r with
  | Res.ret _ => Res.ret ()
  | Res.raise e => Res.raise e
  | Res.block => Res.block
  | Res.relock => Res.relock
  | Res.fault => Res.fault

/-- One `wait()` or `get()` on a state: what the caller sees and the state left. -/
def details.basic_shared_state_with_value.consume {E T : Type} [Inhabited T]
    (s : basic_shared_state_with_value E T) (op : Consume) :
    Res E Unit × basic_shared_state_with_value E T :=
  match op with
  | Consume.wait => s.wait
  | Consume.get => (s.get.1.void, s.get.2)

/-- A sequence of `wait()`/`get()` calls on one state: the outcomes in order
and the state left. -/
def details.basic_shared_state_with_value.consume_all {E T : Type} [Inhabited T] :
    List Consume → basic_shared_state_with_value E T →
      List (Res E Unit) × basic_shared_state_with_value E T
  | [], s => ([], s)
  | op :: ops, s =>
    ((s.consume op).1 :: (consume_all ops (s.consume op).2).1,
      (consume_all ops (s.consume op).2).2)

/-- Move constructor `future(future &&f)`: `state(f.state)`, `f.state = nullptr`.
The result is the new future and what is left of `f`; no call is made on a
state, the store is handed back as it came. -/
def future.move_ctor {E T : Type} (h : Heap E T) (f : future) : (future × future) × Heap E T :=
  ((⟨f.state⟩, ⟨none⟩), h)

/-- Move assignment `future::operator=(future &&f)`: `std::swap(state, f.state)`.
The result is the destination and what is left of `f`. -/
def future.move_assign {E T : Type} (h : Heap E T) (self f : future) :
    (future × future) × Heap E T :=
  ((⟨f.state⟩, ⟨self.state⟩), h)

/-- Move constructor `promise(promise &&p)`: `state(p.state)`, `p.state = nullptr`. -/
def promise.move_ctor {E T : Type} (h : Heap E T) (p : promise) :
    (promise × promise) × Heap E T :=
  ((⟨p.state⟩, ⟨none⟩), h)

/-- Move assignment `promise::operator=(promise &&p)`: `std::swap(state, p.state)`. -/
def promise.move_assign {E T : Type} (h : Heap E T) (self p : promise) :
    (promise × promise) × Heap E T :=
  ((⟨p.state⟩, ⟨self.state⟩), h)

/-- Method `promise<void>::set`. -/
def promise.set_void {E : Type} (h : Heap E Unit) (p : promise) : Res E Unit × Heap E Unit :=
  h.call p.state fun c =>
    (c.tobasic_shared_state.set.1, { c with tobasic_shared_state := c.tobasic_shared_state.set.2 })

/-- Method `execute()` of a `shared_state<T, Fn>` with the callable given as a
function of what it captured: `fn()` is evaluated where the source calls it,
and the last component counts the calls of `fn`. -/
def details.shared_state.execute_fn {E T σ : Type} (s : basic_shared_state_with_value E T)
    (fn : σ → Res E T × σ) (env : σ) (calls : Nat) :
    (Res E Unit × basic_shared_state_with_value E T) × σ × Nat :=
  (shared_state.execute s (fn env).1, (fn env).2, calls + 1)

/-- Method `execute()` of a `shared_state<void, Fn>`, as `execute_fn`. -/
def details.shared_state.execute_void_fn {E σ : Type} (s : basic_shared_state E)
    (fn : σ → Res E Unit × σ) (env : σ) (calls : Nat) :
    (Res E Unit × basic_shared_state E) × σ × Nat :=
  (shared_state.execute_void s (fn env).1, (fn env).2, calls + 1)

/-- Function `make_ready_future()`, the void overload:
`new`, `make_future(state)`, `state->set()`, `state->release()`, `return f`. -/
def make_ready_future_void {E : Type} (h : Heap E Unit) : Res E future × Heap E Unit :=
  Res.seq (details.make_future h.alloc.2 (some h.alloc.1)) fun f h1 =>
  Res.seq (promise.set_void h1 ⟨some h.alloc.1⟩) fun _ h2 =>
  Res.seq (h2.release (some h.alloc.1)) fun _ h3 => (Res.ret f, h3)

namespace net

/-- What `socket::send` throws: `std::exception()`. -/
inductive std_exception where
  | mk
  deriving DecidableEq, Repr

/-- Value `SOCKET_ERROR` of WinSock. -/
def SOCKET_ERROR : Int := -1

/-- Class `net::socket`: the `sock` pointer, `none` being `nullptr`. -/
structure socket where
  sock : Option Nat
  deriving DecidableEq, Repr

/-- One call of `::send`: the offset `ptr - buf` it starts at, the number of
bytes it asks for, and what the OS returned. -/
structure SendCall where
  ptr : Int
  bytes : Int
  sent : Int
  deriving DecidableEq, Repr

/-- The loop `while (ptr < end)` of `socket::send` on a buffer of `len` bytes,
entered at offset `ptr` when `n` calls of `::send` have been made; `os n bytes`
is what the OS returns to call number `n` asking for `bytes` bytes.  The
result lists the calls made; `none` when the fuel is used up. -/
def send_loop (os : Nat → Int → Int) (len : Nat) :
    Nat → Int → Nat → Option (Res std_exception Unit × List SendCall)
  | 0, _, _ => none
  | fuel + 1, ptr, n =>
    if ptr < (len : Int) then
      if os n (min ((len : Int) - ptr) 1048576) = SOCKET_ERROR ∨
          os n (min ((len : Int) - ptr) 1048576) = 0 then
        some (Res.raise std_exception.mk,
          [⟨ptr, min ((len : Int) - ptr) 1048576, os n (min ((len : Int) - ptr) 1048576)⟩])
      else
        (send_loop os len fuel (ptr + os n (min ((len : Int) - ptr) 1048576)) (n + 1)).map
          fun r =>
            (r.1, ⟨ptr, min ((len : Int) - ptr) 1048576,
              os n (min ((len : Int) - ptr) 1048576)⟩ :: r.2)
    else some (Res.ret (), [])

/-- Method `socket::send(buf, len)`: throws when `sock` is null, otherwise the
loop from `ptr = buf`. -/
def socket.send (s : socket) (os : Nat → Int → Int) (len : Nat) (fuel : Nat) :
    Option (Res std_exception Unit × List SendCall) :=
  match s.sock with
  | none => some (Res.raise std_exception.mk, [])
  | some _ => send_loop os len fuel 0 0

end net

/-- Sample: a promise that failed with 7, in an otherwise empty store. -/
def sample_failed_heap : Heap Nat Nat :=
  (promise.set_exception (promise.ctor Heap.empty).2 ⟨some 0⟩ (some 7)).2

/-- Sample callable: counts its calls in what it captured and returns 4. -/
def fn_count_four : Nat → Res Nat Nat × Nat := fun k => (Res.ret 4, k + 1)

/-- Sample continuation: `throw 9;`, the future is not touched. -/
def fn_throw : Continuation Nat Nat Nat := fun _ h => (Res.raise 9, h)

/-- Sample OS: every call of `::send` takes at most 3 bytes. -/
def os_three : Nat → Int → Int := fun _ bytes => min bytes 3

/-- Method `wait` with the value that `auto ptr = std::move(ex)` leaves in the
member `ex` given by `moved`.  The C++ standard does not say what a moved-from
`std::exception_ptr` holds: a library with a move constructor leaves it null
(`moved = fun _ => none`, which is `wait` above); a library whose
`exception_ptr` has only a copy constructor, as the one of MSVC, leaves it as
it was (`moved = id`). -/
def details.basic_shared_state.wait_with {E : Type} (moved : Option E → Option E)
    (s : basic_shared_state E) : Res E Unit × basic_shared_state E :=
  if s.mtx then (Res.relock, s)
  else if s.state = completion.not_ready then (Res.block, s)
  else
    match s.ex with
    | some e => (Res.raise e, { s with ex := moved (some e) })
    | none => (Res.ret (), s)

/-- Inherited `wait`, with the moved-from `ex` given by `moved`. -/
def details.basic_shared_state_with_value.wait_with {E T : Type} (moved : Option E → Option E)
    (s : basic_shared_state_with_value E T) : Res E Unit × basic_shared_state_with_value E T :=
  ((s.tobasic_shared_state.wait_with moved).1,
    { s with tobasic_shared_state := (s.tobasic_shared_state.wait_with moved).2 })

/-- Method `get`, with the moved-from `ex` given by `moved`. -/
def details.basic_shared_state_with_value.get_with {E T : Type} [Inhabited T]
    (moved : Option E → Option E) (s : basic_shared_state_with_value E T) :
    Res E T × basic_shared_state_with_value E T :=
  if s.mtx then (Res.relock, s)
  else if s.state = completion.not_ready then (Res.block, s)
  else
    match s.ex with
    | some e => (Res.raise e, { s with ex := moved (some e) })
    | none => (Res.ret s.value, { s with value := default })

/-- First access of `release`, the test `if (ref == 1) { delete this; return; }`:
the result tells whether the call ended here.  `ref` is atomic, so a thread
that runs `release` next to another one makes this access and the decrement
as two steps, and steps of the other thread can come between them. -/
def Heap.release_test {E T : Type} (h : Heap E T) (state : Option Nat) :
    Res E Bool × Heap E T :=
  match state with
  | none => (Res.fault, h)
  | some a =>
    match h.cells a with
    | none => (Res.fault, h)
    | some c => if c.ref = 1 then (Res.ret true, h.delete a c) else (Res.ret false, h)

/-- Second access of `release`, reached when the test failed: `--ref`. -/
def Heap.release_dec {E T : Type} (h : Heap E T) (state : Option Nat) : Res E Unit × Heap E T :=
  h.call state fun c => (Res.ret (), { c with ref := wrap32 (c.ref - 1) })

/-- Sample: a state that failed with 7 and has not been waited for. -/
def failed_state : basic_shared_state_with_value Nat Nat :=
  ((basic_shared_state_with_value.ctor : basic_shared_state_with_value Nat Nat).set_exception
    (some 7)).2

/-- Sample: the store after `queue_work` of a callable and the `execute()` of
its task, the callable returning 4; the callback has not yet called
`release()` and the future is still held. -/
def executed_heap : Heap Nat Nat :=
  ((queue_work ((Heap.empty : Heap Nat Nat), [])).2.1.call (some 0) fun c =>
    shared_state.execute c (Res.ret 4)).2

/-! ## Lemmas -/

theorem make_ready_future_spec {E T : Type} [Inhabited T] (h : Heap E T) (v : T) :
    ∃ h1, make_ready_future h v = (Res.ret ⟨some h.next⟩, h1) ∧
      h1.cells h.next =
        some { ref := 1, state := completion.has_value, ex := none, mtx := false, value := v } ∧
      (∀ q, q ≠ h.next → h1.cells q = h.cells q) ∧ h1.next = h.next + 1 ∧
      h1.freed = h.freed ∧ h1.warnings = h.warnings := by
  refine ⟨(make_ready_future h v).2, ?_, ?_, ?_, ?_, ?_, ?_⟩ <;>
    simp +contextual [make_ready_future, details.make_future, Heap.call, Heap.alloc, Heap.write,
      Heap.release, Res.seq, basic_shared_state_with_value.ctor, basic_shared_state.ctor,
      basic_shared_state_with_value.addref, basic_shared_state.addref,
      basic_shared_state_with_value.set, wrap32]

theorem queue_work_spec {E T : Type} [Inhabited T] (h : Heap E T) (pool : List Nat) :
    ∃ h1, queue_work (h, pool) = (Res.ret ⟨some h.next⟩, (h1, pool ++ [h.next])) ∧
      h1.cells h.next =
        some { ref := 2, state := completion.not_ready, ex := none, mtx := false,
               value := default } ∧
      (∀ q, q ≠ h.next → h1.cells q = h.cells q) ∧ h1.next = h.next + 1 ∧
      h1.freed = h.freed ∧ h1.warnings = h.warnings := by
  refine ⟨(queue_work (h, pool)).2.1, ?_, ?_, ?_, ?_, ?_, ?_⟩ <;>
    simp +contextual [queue_work, details.queue_work, details.make_future, Heap.call, Heap.alloc,
      Heap.write, Heap.release, Res.seq, basic_shared_state_with_value.ctor,
      basic_shared_state.ctor, basic_shared_state_with_value.addref, basic_shared_state.addref,
      wrap32]

theorem future_get_resolved {E T : Type} [Inhabited T] (h : Heap E T) (f : future) (a : Nat)
    (c : basic_shared_state_with_value E T) (hf : f.state = some a) (hc : h.cells a = some c)
    (hm : c.mtx = false) (hs : c.state ≠ completion.not_ready) :
    ∃ h1, (∀ q, q ≠ a → h1.cells q = h.cells q) ∧
      ((∃ e, c.ex = some e ∧ future.get h f = (Res.raise e, h1)) ∨
       (c.ex = none ∧ future.get h f = (Res.ret c.value, h1))) := by
  cases hex : c.ex with
  | none =>
    refine ⟨h.write a (some { c with value := default }), ?_, Or.inr ⟨rfl, ?_⟩⟩
    · intro q hq
      simp [Heap.write, hq]
    · simp [future.get, Heap.call, hf, hc, basic_shared_state_with_value.get, hm, hs, hex]
  | some e =>
    refine ⟨h.write a (some { c with ex := none }), ?_, Or.inl ⟨e, rfl, ?_⟩⟩
    · intro q hq
      simp [Heap.write, hq]
    · simp [future.get, Heap.call, hf, hc, basic_shared_state_with_value.get, hm, hs, hex]

theorem deref_frame {E T : Type} (h h1 : Heap E T) (a : Nat)
    (hfr : ∀ q, q ≠ a → h1.cells q = h.cells q) (g : future) (hg : g.state ≠ some a) :
    h1.deref g = h.deref g := by
  unfold Heap.deref
  cases hgs : g.state with
  | none => rfl
  | some b =>
    have : b ≠ a := fun hb => hg (by rw [hgs, hb])
    simp [hfr b this]

theorem when_all_loop_spec {E T : Type} [Inhabited T] (range : List future) :
    ∀ (list : List T) (ex : Option E) (h : Heap E T) (tr : List Event),
      (range.map fun f => f.state).Nodup → (∀ f ∈ range, resolved h f) →
      ∃ h1, when_all_loop range list ex (h, tr) =
        (Res.ret (list ++ range.filterMap (got_value h),
            (range.map (got_error h)).foldl keep_last ex),
          (h1, tr ++ range.map Event.get)) := by
  induction range with
  | nil =>
    intro list ex h tr _ _
    exact ⟨h, by simp [when_all_loop]⟩
  | cons f rest ih =>
    intro list ex h tr hnd hres
    obtain ⟨a, c, hf, hc, hm, hs⟩ := hres f (List.mem_cons_self _ _)
    obtain ⟨h1, hfr, hget⟩ := future_get_resolved h f a c hf hc hm hs
    have hnd0 : (∀ x ∈ rest, ¬x.state = f.state) ∧ (rest.map fun f => f.state).Nodup := by
      simpa using hnd
    have hnd2 : (rest.map fun f => f.state).Nodup := hnd0.2
    have hnotin : ∀ g ∈ rest, g.state ≠ some a := by
      intro g hg hga
      exact hnd0.1 g hg (by rw [hf, hga])
    have hderef : ∀ g ∈ rest, h1.deref g = h.deref g := fun g hg =>
      deref_frame h h1 a hfr g (hnotin g hg)
    have hres2 : ∀ g ∈ rest, resolved h1 g := by
      intro g hg
      obtain ⟨b, d, hb, hd, hrest⟩ := hres g (List.mem_cons_of_mem _ hg)
      have hba : b ≠ a := fun hba => hnotin g hg (by rw [hb, hba])
      exact ⟨b, d, hb, by rw [hfr b hba, hd], hrest⟩
    have hval : rest.filterMap (got_value h1) = rest.filterMap (got_value h) := by
      apply List.filterMap_congr
      intro g hg
      simp [got_value, hderef g hg]
    have herr : rest.map (got_error h1) = rest.map (got_error h) := by
      apply List.map_congr_left
      intro g hg
      simp [got_error, hderef g hg]
    have hdf : h.deref f = some c := by simp [Heap.deref, hf, hc]
    rcases hget with ⟨e, hex, hg⟩ | ⟨hex, hg⟩
    · obtain ⟨h2, hloop⟩ := ih list (some e) h1 (tr ++ [Event.get f]) hnd2 hres2
      refine ⟨h2, ?_⟩
      simp [when_all_loop, hg, hloop, hval, herr, got_value, got_error, hdf, hex, keep_last]
    · obtain ⟨h2, hloop⟩ := ih (list ++ [c.value]) ex h1 (tr ++ [Event.get f]) hnd2 hres2
      refine ⟨h2, ?_⟩
      simp [when_all_loop, hg, hloop, hval, herr, got_value, got_error, hdf, hex, keep_last]

theorem when_all_of_loop_none {E T : Type} [Inhabited T] (out : Heap E (List T)) (inp : Heap E T)
    (range : List future) (list : List T) (i1 : Heap E T) (tr : List Event)
    (hloop : when_all_loop range [] none (inp, []) = (Res.ret (list, none), (i1, tr))) :
    (when_all out inp range).result = Res.ret ⟨some out.next⟩ ∧
    (when_all out inp range).trace = tr ++ [Event.set] ∧
    (when_all out inp range).out.cells out.next =
      some { ref := 1, state := completion.has_value, ex := none, mtx := false,
             value := list } := by
  simp [when_all, hloop, promise.get_future, promise.ctor, promise.set, promise.dtor,
    details.make_future, Heap.call, Heap.alloc, Heap.write, Heap.release, Res.seq,
    basic_shared_state_with_value.ctor, basic_shared_state.ctor,
    basic_shared_state_with_value.addref, basic_shared_state.addref,
    basic_shared_state_with_value.set, wrap32]

theorem when_all_of_loop_some {E T : Type} [Inhabited T] (out : Heap E (List T)) (inp : Heap E T)
    (range : List future) (list : List T) (e : E) (i1 : Heap E T) (tr : List Event)
    (hloop : when_all_loop range [] none (inp, []) = (Res.ret (list, some e), (i1, tr))) :
    (when_all out inp range).result = Res.ret ⟨some out.next⟩ ∧
    (when_all out inp range).trace = tr ++ [Event.set_exception] ∧
    (when_all out inp range).out.cells out.next =
      some { ref := 1, state := completion.has_error, ex := some e, mtx := false,
             value := [] } := by
  simp [when_all, hloop, promise.get_future, promise.ctor, promise.set_exception, promise.dtor,
    details.make_future, Heap.call, Heap.alloc, Heap.write, Heap.release, Res.seq,
    basic_shared_state_with_value.ctor, basic_shared_state.ctor,
    basic_shared_state_with_value.addref, basic_shared_state.addref,
    basic_shared_state_with_value.set_exception, basic_shared_state.set_exception, wrap32]
  rfl

theorem values_of_forall2 {E T : Type} (h : Heap E T) (range : List future) (vs : List T)
    (hv : List.Forall₂ (resolved_with_value h) range vs) :
    (∀ f ∈ range, resolved h f) ∧ range.filterMap (got_value h) = vs ∧
      ∀ ex : Option E, (range.map (got_error h)).foldl keep_last ex = ex := by
  induction hv with
  | nil => simp
  | cons hfv _ ih =>
    obtain ⟨a, c, hf, hc, hm, hs, hex, hval⟩ := hfv
    obtain ⟨ih1, ih2, ih3⟩ := ih
    refine ⟨?_, ?_, ?_⟩
    · intro g hg
      rcases List.mem_cons.mp hg with rfl | hg
      · exact ⟨a, c, hf, hc, hm, by simp [hs]⟩
      · exact ih1 g hg
    · simp [got_value, Heap.deref, hf, hc, hex, hval, ih2]
    · intro ex
      simp [got_error, Heap.deref, hf, hc, hex, keep_last, ih3]

theorem keep_last_foldl_none {E : Type} (l : List (Option E)) (hl : ∀ o ∈ l, o = none)
    (ex : Option E) : l.foldl keep_last ex = ex := by
  induction l generalizing ex with
  | nil => rfl
  | cons o l ih =>
    have ho : o = none := hl o (List.mem_cons_self _ _)
    subst ho
    simpa [keep_last] using ih (fun o ho => hl o (List.mem_cons_of_mem _ ho)) ex

/-! ## The claims -/

/-- C1: on a fresh promise, one `set(v)` followed by `get_future().get()` returns
exactly `v`, and one `set_exception(e)` followed by `get_future().get()` raises
exactly `e`; neither call blocks. -/
theorem promise_set_once_then_get {E T : Type} [Inhabited T] (h : Heap E T) (v : T) (e : E) :
    let p := (promise.ctor h).1
    let h0 := (promise.ctor h).2
    let hv := (promise.set h0 p v).2
    let he := (promise.set_exception h0 p (some e)).2
    (promise.set h0 p v).1 = Res.ret () ∧
    (promise.get_future hv p).1 = Res.ret ⟨p.state⟩ ∧
    (future.get (promise.get_future hv p).2 ⟨p.state⟩).1 = Res.ret v ∧
    (promise.set_exception h0 p (some e)).1 = Res.ret () ∧
    (promise.get_future he p).1 = Res.ret ⟨p.state⟩ ∧
    (future.get (promise.get_future he p).2 ⟨p.state⟩).1 = Res.raise e := by
  simp [promise.set, promise.set_exception, promise.get_future, promise.ctor, future.get,
    details.make_future, Heap.call, Heap.alloc, Heap.write, Res.seq,
    basic_shared_state_with_value.ctor, basic_shared_state.ctor,
    basic_shared_state_with_value.set, basic_shared_state_with_value.set_exception,
    basic_shared_state.set_exception, basic_shared_state_with_value.get,
    basic_shared_state_with_value.addref, basic_shared_state.addref]

/-- C2: the code at the failing input.  On a state already resolved with the
value 1, `set(2)` returns normally and stores 2, so a later `get` returns 2;
`set_exception` returns normally, turns the flag to `has_error`, and a later
`get` raises.  No error is reported and the first result is lost. -/
theorem set_on_resolved_state_overwrites :
    (sample_state.set 2).1 = Res.ret () ∧
    (sample_state.set 2).2.value = 2 ∧
    (sample_state.set 2).2.get.1 = Res.ret 2 ∧
    (sample_state.set_exception (some 7)).1 = Res.ret () ∧
    (sample_state.set_exception (some 7)).2.state = completion.has_error ∧
    (sample_state.set_exception (some 7)).2.ex = some 7 ∧
    (sample_state.set_exception (some 7)).2.get.1 = Res.raise 7 ∧
    (sample_state.tobasic_shared_state.set).1 = Res.ret () := by
  decide

/-- C3: the code at the failing input.  A state resolved by `set_exception(7)`
is `has_error`; a following `set(1)`, or `execute()` of a callable returning 1,
makes it `has_value`; and `set_exception(7)` on a state resolved with a value
makes it `has_error`. -/
theorem completion_changes_after_resolution :
    ((basic_shared_state_with_value.ctor : basic_shared_state_with_value Nat Nat).set_exception
      (some 7)).2.state = completion.has_error ∧
    (((basic_shared_state_with_value.ctor : basic_shared_state_with_value Nat Nat).set_exception
      (some 7)).2.set 1).2.state = completion.has_value ∧
    (shared_state.execute
      ((basic_shared_state_with_value.ctor : basic_shared_state_with_value Nat Nat).set_exception
        (some 7)).2 (Res.ret 1)).2.state = completion.has_value ∧
    sample_state.state = completion.has_value ∧
    (sample_state.set_exception (some 7)).2.state = completion.has_error := by
  decide

/-- C4: for a range of `N >= 0` distinct futures that are resolved with the
values `vs`, `when_all` returns a future whose `get` yields exactly `vs`, in
range order and of length `N`. -/
theorem when_all_collects_values_in_order {E T : Type} [Inhabited T] (out : Heap E (List T)) (inp : Heap E T)
    (range : List future) (vs : List T)
    (hdistinct : (range.map fun f => f.state).Nodup)
    (hvalues : List.Forall₂ (resolved_with_value inp) range vs) :
    (when_all out inp range).result = Res.ret ⟨some out.next⟩ ∧
    (future.get (when_all out inp range).out ⟨some out.next⟩).1 = Res.ret vs ∧
    vs.length = range.length := by
  obtain ⟨hres, hval, herr⟩ := values_of_forall2 inp range vs hvalues
  obtain ⟨i1, hloop⟩ := when_all_loop_spec range [] (none : Option E) inp [] hdistinct hres
  rw [hval, herr] at hloop
  obtain ⟨hr, -, hcell⟩ := when_all_of_loop_none out inp range vs i1 _ (by simpa using hloop)
  refine ⟨hr, ?_, hvalues.length_eq.symm⟩
  simp [future.get, Heap.call, hcell, basic_shared_state_with_value.get]

/-- Witness for C4 on the two futures resolved with 10 and 20. -/
theorem when_all_collects_values_in_order_witness :
    (when_all (Heap.empty : Heap Nat (List Nat)) sample_values [⟨some 0⟩, ⟨some 1⟩]).result =
      Res.ret ⟨some 0⟩ ∧
    (future.get (when_all (Heap.empty : Heap Nat (List Nat)) sample_values
      [⟨some 0⟩, ⟨some 1⟩]).out ⟨some 0⟩).1 = Res.ret [10, 20] ∧
    [10, 20].length = [(⟨some 0⟩ : future), ⟨some 1⟩].length :=
  when_all_collects_values_in_order Heap.empty sample_values [⟨some 0⟩, ⟨some 1⟩] [10, 20]
    (by decide)
    (List.Forall₂.cons ⟨0, _, rfl, rfl, rfl, rfl, rfl, rfl⟩
      (List.Forall₂.cons ⟨1, _, rfl, rfl, rfl, rfl, rfl, rfl⟩ List.Forall₂.nil))

/-- C5: for a range of distinct resolved futures in which `f` is the last one
holding an error, `when_all` calls `get` once on every future of the range, in
range order, and only then `set_exception` on its promise; the returned future
fails with the error of `f`. -/
theorem when_all_drains_and_keeps_last_error {E T : Type} [Inhabited T] (out : Heap E (List T)) (inp : Heap E T)
    (pre post : List future) (f : future) (e : E)
    (hdistinct : ((pre ++ f :: post).map fun g => g.state).Nodup)
    (hresolved : ∀ g ∈ pre ++ f :: post, resolved inp g)
    (hfails : resolved_with_error inp f e)
    (hlast : ∀ g ∈ post, got_error inp g = none) :
    (when_all out inp (pre ++ f :: post)).trace =
      (pre ++ f :: post).map Event.get ++ [Event.set_exception] ∧
    (when_all out inp (pre ++ f :: post)).result = Res.ret ⟨some out.next⟩ ∧
    (future.get (when_all out inp (pre ++ f :: post)).out ⟨some out.next⟩).1 = Res.raise e := by
  obtain ⟨i1, hloop⟩ :=
    when_all_loop_spec (pre ++ f :: post) [] (none : Option E) inp [] hdistinct hresolved
  have hfe : got_error inp f = some e := by
    obtain ⟨a, c, hf, hc, -, -, hex⟩ := hfails
    simp [got_error, Heap.deref, hf, hc, hex]
  have hex : ((pre ++ f :: post).map (got_error inp)).foldl keep_last none = some e := by
    rw [List.map_append, List.foldl_append, List.map_cons, List.foldl_cons, hfe]
    rw [keep_last_foldl_none _ (by simpa using hlast)]
    rfl
  rw [hex] at hloop
  obtain ⟨hr, htr, hcell⟩ := when_all_of_loop_some out inp _ _ e i1 _ hloop
  refine ⟨by simpa using htr, hr, ?_⟩
  simp [future.get, Heap.call, hcell, basic_shared_state_with_value.get]

/-- Witness for C5 on the range value 10, value 20, error 7, value 30. -/
theorem when_all_drains_and_keeps_last_error_witness :
    (when_all (Heap.empty : Heap Nat (List Nat)) sample_failing
      ([future.mk (some 0), future.mk (some 1)] ++ future.mk (some 2) :: [future.mk (some 3)])).trace =
      ([future.mk (some 0), future.mk (some 1)] ++ future.mk (some 2) :: [future.mk (some 3)]).map Event.get ++
        [Event.set_exception] ∧
    (when_all (Heap.empty : Heap Nat (List Nat)) sample_failing
      ([future.mk (some 0), future.mk (some 1)] ++ future.mk (some 2) :: [future.mk (some 3)])).result = Res.ret ⟨some 0⟩ ∧
    (future.get (when_all (Heap.empty : Heap Nat (List Nat)) sample_failing
      ([future.mk (some 0), future.mk (some 1)] ++ future.mk (some 2) :: [future.mk (some 3)])).out ⟨some 0⟩).1 = Res.raise 7 :=
  when_all_drains_and_keeps_last_error Heap.empty sample_failing [⟨some 0⟩, ⟨some 1⟩]
    [⟨some 3⟩] ⟨some 2⟩ 7 (by decide)
    (by
      intro g hg
      simp only [List.cons_append, List.nil_append, List.mem_cons, List.mem_singleton,
        List.not_mem_nil, or_false] at hg
      rcases hg with rfl | rfl | rfl | rfl
      · exact ⟨0, _, rfl, rfl, rfl, by decide⟩
      · exact ⟨1, _, rfl, rfl, rfl, by decide⟩
      · exact ⟨2, _, rfl, rfl, rfl, by decide⟩
      · exact ⟨3, _, rfl, rfl, rfl, by decide⟩)
    ⟨2, _, rfl, rfl, rfl, rfl, rfl⟩
    (by decide)

/-- C8: the code at the failing input.  `then(fn)` on a `not_ready` future
submits one task and makes no call of `fn`.  When the antecedent then fails
with 7 and the task runs, `f.wait()` rethrows 7 inside the lambda: `fn` is not
called at all and the returned future holds the error 7.  When the antecedent
is set to 3 instead, `fn` is called once and its `get` sees 3. -/
theorem deferred_then_skips_fn_on_error :
    (future.then_ sample_world ⟨some 0⟩ fn_get).1 = Res.ret ⟨some 0⟩ ∧
    (future.then_ sample_world ⟨some 0⟩ fn_get).2.pool = [0] ∧
    (future.then_ sample_world ⟨some 0⟩ fn_get).2.invoked = 0 ∧
    (future.then_task (then_and_fail fn_get 7) 0 ⟨some 0⟩ fn_get).1 = Res.ret () ∧
    (future.then_task (then_and_fail fn_get 7) 0 ⟨some 0⟩ fn_get).2.invoked = 0 ∧
    ((future.then_task (then_and_fail fn_get 7) 0 ⟨some 0⟩ fn_get).2.out.cells 0).map
      (fun c => (c.state, c.ex)) = some (completion.has_error, some 7) ∧
    (future.then_task (then_and_set fn_get 3) 0 ⟨some 0⟩ fn_get).2.invoked = 1 ∧
    ((future.then_task (then_and_set fn_get 3) 0 ⟨some 0⟩ fn_get).2.out.cells 0).map
      (fun c => (c.state, c.value)) = some (completion.has_value, 3) := by
  decide

/-- C9: the code at the failing input.  With a continuation that returns 5
and never touches its future: on an antecedent that failed with 7 before the
call, `then` returns a future resolved with 5; on an antecedent that fails
with 7 after the call, the deferred task leaves the returned future failed
with 7, and `get` on it raises 7. -/
theorem deferred_then_propagates_antecedent_error :
    (future.get (future.then_ failed_world ⟨some 0⟩ fn_five).2.out ⟨some 0⟩).1 = Res.ret 5 ∧
    (future.then_ sample_world ⟨some 0⟩ fn_five).1 = Res.ret ⟨some 0⟩ ∧
    (future.then_task (then_and_fail fn_five 7) 0 ⟨some 0⟩ fn_five).1 = Res.ret () ∧
    (future.then_task (then_and_fail fn_five 7) 0 ⟨some 0⟩ fn_five).2.invoked = 0 ∧
    (future.get (future.then_task (then_and_fail fn_five 7) 0 ⟨some 0⟩ fn_five).2.out
      ⟨some 0⟩).1 = Res.raise 7 := by
  decide

/-- C10: the state of a promise starts with `ref` 1, `get_future` makes it 2,
the destructor of the future makes it 1 and deletes nothing, and the destructor
of the promise then deletes the state: the address is freed once, at the last
drop, and no warning is printed. -/
theorem promise_future_refcount_balanced {E T : Type} [Inhabited T] (h : Heap E T) :
    let p := (promise.ctor h).1
    let h0 := (promise.ctor h).2
    let h1 := (promise.get_future h0 p).2
    let h2 := (future.dtor h1 ⟨p.state⟩).2
    let h3 := (promise.dtor h2 p).2
    p.state = some h.next ∧
    (h0.cells h.next).map (fun c => c.ref) = some 1 ∧
    (promise.get_future h0 p).1 = Res.ret ⟨p.state⟩ ∧
    (h1.cells h.next).map (fun c => c.ref) = some 2 ∧
    (future.dtor h1 ⟨p.state⟩).1 = Res.ret () ∧
    (h2.cells h.next).map (fun c => c.ref) = some 1 ∧
    h2.freed = h.freed ∧
    (promise.dtor h2 p).1 = Res.ret () ∧
    h3.cells h.next = none ∧
    h3.freed = h.freed ++ [h.next] ∧
    h3.warnings = h.warnings := by
  simp [promise.ctor, promise.get_future, promise.dtor, future.dtor, details.make_future,
    Heap.call, Heap.alloc, Heap.write, Heap.release, Heap.delete, Res.seq,
    basic_shared_state_with_value.ctor, basic_shared_state.ctor,
    basic_shared_state_with_value.addref, basic_shared_state.addref, wrap32]

theorem consume_delivered {E T : Type} [Inhabited T] (s : basic_shared_state_with_value E T)
    (hm : s.mtx = false) (hs : s.state ≠ completion.not_ready) (hex : s.ex = none)
    (op : Consume) :
    (s.consume op).1 = Res.ret () ∧ (s.consume op).2.mtx = false ∧
      (s.consume op).2.state ≠ completion.not_ready ∧ (s.consume op).2.ex = none := by
  cases op <;>
    simp [basic_shared_state_with_value.consume, basic_shared_state_with_value.wait,
      basic_shared_state.wait, basic_shared_state_with_value.get, Res.void, hm, hs, hex]

theorem consume_all_delivered {E T : Type} [Inhabited T] (ops : List Consume) :
    ∀ s : basic_shared_state_with_value E T, s.mtx = false →
      s.state ≠ completion.not_ready → s.ex = none →
      ∀ r ∈ (basic_shared_state_with_value.consume_all ops s).1, r = Res.ret () := by
  induction ops with
  | nil =>
    intro s _ _ _ r hr
    simp [basic_shared_state_with_value.consume_all] at hr
  | cons op ops ih =>
    intro s hm hs hex r hr
    obtain ⟨h1, h2, h3, h4⟩ := consume_delivered s hm hs hex op
    simp only [basic_shared_state_with_value.consume_all, List.mem_cons] at hr
    rcases hr with rfl | hr
    · exact h1
    · exact ih _ h2 h3 h4 r hr

/-- With a moved-from `exception_ptr` that is null (`wait`, `get`): after
`set_exception(e)` the first `wait()`/`get()` raises `e` and leaves `ex` null,
and every `wait()`/`get()` after it returns normally. -/
theorem error_delivered_to_first_consumer_only {E T : Type} [Inhabited T]
    (s : basic_shared_state_with_value E T) (e : E) (first : Consume) (later : List Consume)
    (hm : s.mtx = false) :
    (s.set_exception (some e)).1 = Res.ret () ∧
    ((s.set_exception (some e)).2.consume first).1 = Res.raise e ∧
    ((s.set_exception (some e)).2.consume first).2.ex = none ∧
    ∀ r ∈ (basic_shared_state_with_value.consume_all later
        ((s.set_exception (some e)).2.consume first).2).1, r = Res.ret () := by
  have h1 : (s.set_exception (some e)).1 = Res.ret () := by
    simp [basic_shared_state_with_value.set_exception, basic_shared_state.set_exception, hm]
  have h2 : ((s.set_exception (some e)).2.consume first).1 = Res.raise e ∧
      ((s.set_exception (some e)).2.consume first).2.mtx = false ∧
      ((s.set_exception (some e)).2.consume first).2.state ≠ completion.not_ready ∧
      ((s.set_exception (some e)).2.consume first).2.ex = none := by
    cases first <;>
      simp [basic_shared_state_with_value.consume, basic_shared_state_with_value.wait,
        basic_shared_state.wait, basic_shared_state_with_value.get, Res.void,
        basic_shared_state_with_value.set_exception, basic_shared_state.set_exception, hm]
  exact ⟨h1, h2.1, h2.2.2.2, consume_all_delivered later _ h2.2.1 h2.2.2.1 h2.2.2.2⟩

/-- The lemma above on a fresh state: `get` first, then `wait`, `get`, `wait`. -/
theorem error_delivered_to_first_consumer_only_witness :
    ((basic_shared_state_with_value.ctor : basic_shared_state_with_value Nat Nat).set_exception
      (some 7)).1 = Res.ret () ∧
    (((basic_shared_state_with_value.ctor : basic_shared_state_with_value Nat Nat).set_exception
      (some 7)).2.consume Consume.get).1 = Res.raise 7 ∧
    (((basic_shared_state_with_value.ctor : basic_shared_state_with_value Nat Nat).set_exception
      (some 7)).2.consume Consume.get).2.ex = none ∧
    ∀ r ∈ (basic_shared_state_with_value.consume_all [Consume.wait, Consume.get, Consume.wait]
        (((basic_shared_state_with_value.ctor :
          basic_shared_state_with_value Nat Nat).set_exception (some 7)).2.consume
            Consume.get).2).1, r = Res.ret () :=
  error_delivered_to_first_consumer_only basic_shared_state_with_value.ctor 7 Consume.get
    [Consume.wait, Consume.get, Consume.wait] rfl

theorem wait_with_null {E T : Type} (s : basic_shared_state_with_value E T) :
    s.wait_with (fun _ => none) = s.wait := by
  simp only [basic_shared_state_with_value.wait_with, basic_shared_state.wait_with,
    basic_shared_state_with_value.wait, basic_shared_state.wait]

theorem get_with_null {E T : Type} [Inhabited T] (s : basic_shared_state_with_value E T) :
    s.get_with (fun _ => none) = s.get := by
  simp only [basic_shared_state_with_value.get_with, basic_shared_state_with_value.get]

theorem error_delivered_again_when_move_copies {E T : Type} [Inhabited T]
    (moved : Option E → Option E) (s : basic_shared_state_with_value E T) (e : E)
    (hm : s.mtx = false) (hs : s.state ≠ completion.not_ready) (hex : s.ex = some e)
    (hcopy : moved (some e) = some e) :
    s.wait_with moved = (Res.raise e, s) ∧ (s.get_with moved).1 = Res.raise e ∧
      (s.get_with moved).2 = s := by
  cases s with
  | mk b v =>
    cases b with
    | mk r st ex mtx =>
      simp only at hm hs hex
      subst hm hex
      simp [basic_shared_state_with_value.wait_with, basic_shared_state.wait_with,
        basic_shared_state_with_value.get_with, hs, hcopy]

/-- C11: the code at the failing input.  With a library whose `exception_ptr`
is copied by `std::move`, `ex` is still set after the first `wait()` raised 7:
the second `wait()` raises 7 again, a `get()` after it raises 7, and `ex`
holds 7 afterwards.  With a library that empties the moved-from pointer the
second call returns. -/
theorem error_delivered_again_after_first_wait :
    (failed_state.wait_with id).1 = Res.raise 7 ∧
    (failed_state.wait_with id).2.ex = some 7 ∧
    ((failed_state.wait_with id).2.wait_with id).1 = Res.raise 7 ∧
    (((failed_state.wait_with id).2.wait_with id).2.get_with id).1 = Res.raise 7 ∧
    (((failed_state.wait_with id).2.wait_with id).2.get_with id).2.ex = some 7 ∧
    (failed_state.get_with id).1 = Res.raise 7 ∧
    ((failed_state.get_with id).2.get_with id).1 = Res.raise 7 ∧
    (failed_state.wait_with fun _ => none).1 = Res.raise 7 ∧
    ((failed_state.wait_with fun _ => none).2.wait_with fun _ => none).1 = Res.ret () := by
  decide

/-- C12: when the last reference to a state is given up after
`set_exception(e)` and before any `wait()`/`get()`, the destructor prints its
warning for `e` and the state is deleted. -/
theorem undelivered_error_warns_at_destruction {E T : Type} (h : Heap E T) (a : Nat)
    (c : basic_shared_state_with_value E T) (e : E)
    (hc : h.cells a = some c) (hm : c.mtx = false) (href : c.ref = 1) :
    (promise.set_exception h ⟨some a⟩ (some e)).1 = Res.ret () ∧
    (Heap.release (promise.set_exception h ⟨some a⟩ (some e)).2 (some a)).1 = Res.ret () ∧
    (Heap.release (promise.set_exception h ⟨some a⟩ (some e)).2 (some a)).2.warnings =
      h.warnings ++ [e] ∧
    (Heap.release (promise.set_exception h ⟨some a⟩ (some e)).2 (some a)).2.cells a = none ∧
    (Heap.release (promise.set_exception h ⟨some a⟩ (some e)).2 (some a)).2.freed =
      h.freed ++ [a] := by
  simp [promise.set_exception, Heap.call, hc, Heap.release, Heap.write, Heap.delete,
    basic_shared_state_with_value.set_exception, basic_shared_state.set_exception, hm, href]

/-- Witness for C12: a fresh promise fails with 7 and is dropped. -/
theorem undelivered_error_warns_at_destruction_witness :
    (promise.set_exception (promise.ctor (Heap.empty : Heap Nat Nat)).2 ⟨some 0⟩ (some 7)).1 =
      Res.ret () ∧
    (Heap.release (promise.set_exception (promise.ctor (Heap.empty : Heap Nat Nat)).2 ⟨some 0⟩
      (some 7)).2 (some 0)).1 = Res.ret () ∧
    (Heap.release (promise.set_exception (promise.ctor (Heap.empty : Heap Nat Nat)).2 ⟨some 0⟩
      (some 7)).2 (some 0)).2.warnings =
      (promise.ctor (Heap.empty : Heap Nat Nat)).2.warnings ++ [7] ∧
    (Heap.release (promise.set_exception (promise.ctor (Heap.empty : Heap Nat Nat)).2 ⟨some 0⟩
      (some 7)).2 (some 0)).2.cells 0 = none ∧
    (Heap.release (promise.set_exception (promise.ctor (Heap.empty : Heap Nat Nat)).2 ⟨some 0⟩
      (some 7)).2 (some 0)).2.freed = (promise.ctor (Heap.empty : Heap Nat Nat)).2.freed ++ [0] :=
  undelivered_error_warns_at_destruction (promise.ctor Heap.empty).2 0 _ 7 rfl rfl rfl
/-- C13, as stated, fails: move assignment into a future that holds the state
at address 1 from a future that holds the state at address 0 leaves the source
holding address 1, not empty. -/
theorem move_assign_source_not_empty :
    ¬ ((future.move_assign sample_values ⟨some 1⟩ ⟨some 0⟩).1.1.state = some 0 ∧
        (future.move_assign sample_values ⟨some 1⟩ ⟨some 0⟩).1.2.state = none) := by
  decide

/-- C13, amended: move construction hands the state of the source to the new
handle and empties the source; move assignment swaps the two pointers, so the
destination holds the state of the source and the source holds what the
destination held (nothing when the destination was empty); neither makes a
call on a state, every cell and refcount is as before. -/
theorem move_transfers_or_swaps {E T : Type} (h : Heap E T) (self f : future)
    (pself p : promise) :
    (future.move_ctor h f).1.1.state = f.state ∧
    (future.move_ctor h f).1.2.state = none ∧
    (future.move_ctor h f).2 = h ∧
    (future.move_assign h self f).1.1.state = f.state ∧
    (future.move_assign h self f).1.2.state = self.state ∧
    (future.move_assign h ⟨none⟩ f).1.2.state = none ∧
    (future.move_assign h self f).2 = h ∧
    (promise.move_ctor h p).1.1.state = p.state ∧
    (promise.move_ctor h p).1.2.state = none ∧
    (promise.move_ctor h p).2 = h ∧
    (promise.move_assign h pself p).1.1.state = p.state ∧
    (promise.move_assign h pself p).1.2.state = pself.state ∧
    (promise.move_assign h ⟨none⟩ p).1.2.state = none ∧
    (promise.move_assign h pself p).2 = h := by
  simp [future.move_ctor, future.move_assign, promise.move_ctor, promise.move_assign]

/-- C14: the code on an empty handle.  `wait()`, `get()` and `then(fn)` on a
future without state, and `set`/`set_exception` on a promise without state,
pass the empty null test and dereference the null pointer: no exception is
raised.  No state is touched. -/
theorem empty_handle_dereferences_null {E T U : Type} [Inhabited T] [Inhabited U]
    (h : Heap E T) (w : World E T U) (fn : Continuation E T U) (v : T) (err : Option E) :
    future.wait h ⟨none⟩ = (Res.fault, h) ∧
    future.get h ⟨none⟩ = (Res.fault, h) ∧
    future.then_ w ⟨none⟩ fn = (Res.fault, w) ∧
    promise.set h ⟨none⟩ v = (Res.fault, h) ∧
    promise.set_exception h ⟨none⟩ err = (Res.fault, h) := by
  simp [future.wait, future.get, future.then_, promise.set, promise.set_exception, Heap.call,
    Heap.lock]

theorem execute_never_raises {E T : Type} (s : basic_shared_state_with_value E T)
    (hm : s.mtx = false) (r : Res E T) (e : E) : (shared_state.execute s r).1 ≠ Res.raise e := by
  cases r <;>
    simp [shared_state.execute, basic_shared_state_with_value.set,
      basic_shared_state_with_value.set_exception, basic_shared_state.set_exception, hm]

theorem execute_void_never_raises {E : Type} (s : basic_shared_state E)
    (hm : s.mtx = false) (r : Res E Unit) (e : E) :
    (shared_state.execute_void s r).1 ≠ Res.raise e := by
  cases r <;>
    simp [shared_state.execute_void, basic_shared_state.set,
      basic_shared_state.set_exception, hm]

/-- C15: `execute()` on a state whose mutex is free, a `not_ready` one in
particular, makes one call of `fn`; when `fn` returns `v` the state becomes
`has_value` with the value `v`, when `fn` throws `e` it becomes `has_error`
with the error `e`, and in both cases `execute()` returns; whatever `fn` does,
`execute()` raises nothing.  The same holds for the void state. -/
theorem execute_captures_outcome {E T σ : Type} (s : basic_shared_state_with_value E T)
    (sv : basic_shared_state E) (fn : σ → Res E T × σ) (fnv : σ → Res E Unit × σ)
    (env : σ) (calls : Nat)
    (hm : s.mtx = false) (hmv : sv.mtx = false) :
    (shared_state.execute_fn s fn env calls).2.2 = calls + 1 ∧
    (shared_state.execute_fn s fn env calls).2.1 = (fn env).2 ∧
    (∀ v, (fn env).1 = Res.ret v →
      (shared_state.execute_fn s fn env calls).1 =
        (Res.ret (), { s with state := completion.has_value, value := v })) ∧
    (∀ e, (fn env).1 = Res.raise e →
      (shared_state.execute_fn s fn env calls).1 =
        (Res.ret (), { s with state := completion.has_error, ex := some e })) ∧
    (∀ e, (shared_state.execute_fn s fn env calls).1.1 ≠ Res.raise e) ∧
    (shared_state.execute_void_fn sv fnv env calls).2.2 = calls + 1 ∧
    (shared_state.execute_void_fn sv fnv env calls).2.1 = (fnv env).2 ∧
    ((fnv env).1 = Res.ret () →
      (shared_state.execute_void_fn sv fnv env calls).1 =
        (Res.ret (), { sv with state := completion.has_value })) ∧
    (∀ e, (fnv env).1 = Res.raise e →
      (shared_state.execute_void_fn sv fnv env calls).1 =
        (Res.ret (), { sv with state := completion.has_error, ex := some e })) ∧
    (∀ e, (shared_state.execute_void_fn sv fnv env calls).1.1 ≠ Res.raise e) := by
  refine ⟨rfl, rfl, ?_, ?_, ?_, rfl, rfl, ?_, ?_, ?_⟩
  · intro v hv
    simp [shared_state.execute_fn, hv, shared_state.execute, basic_shared_state_with_value.set, hm]
  · intro e he
    simp [shared_state.execute_fn, he, shared_state.execute,
      basic_shared_state_with_value.set_exception, basic_shared_state.set_exception, hm]
  · intro e
    exact execute_never_raises s hm _ e
  · intro hv
    simp [shared_state.execute_void_fn, hv, shared_state.execute_void, basic_shared_state.set, hmv]
  · intro e he
    simp [shared_state.execute_void_fn, he, shared_state.execute_void,
      basic_shared_state.set_exception, hmv]
  · intro e
    exact execute_void_never_raises sv hmv _ e

/-- Witness for C15: a fresh state and a callable that counts its calls and
returns 4; a fresh void state and a callable that throws 9. -/
theorem execute_captures_outcome_witness :
    (shared_state.execute_fn (basic_shared_state_with_value.ctor :
      basic_shared_state_with_value Nat Nat) fn_count_four 0 0).2.2 = 0 + 1 ∧
    (shared_state.execute_fn (basic_shared_state_with_value.ctor :
      basic_shared_state_with_value Nat Nat) fn_count_four 0 0).1 =
        (Res.ret (), { (basic_shared_state_with_value.ctor :
          basic_shared_state_with_value Nat Nat) with
            state := completion.has_value, value := 4 }) ∧
    (shared_state.execute_void_fn (basic_shared_state.ctor : basic_shared_state Nat)
      (fun k : Nat => (Res.raise 9, k + 1)) 0 0).1 =
        (Res.ret (), { (basic_shared_state.ctor : basic_shared_state Nat) with
          state := completion.has_error, ex := some 9 }) :=
  ⟨(execute_captures_outcome basic_shared_state_with_value.ctor basic_shared_state.ctor
      fn_count_four (fun k : Nat => (Res.raise 9, k + 1)) 0 0 rfl rfl).1,
    (execute_captures_outcome basic_shared_state_with_value.ctor basic_shared_state.ctor
      fn_count_four (fun k : Nat => (Res.raise 9, k + 1)) 0 0 rfl rfl).2.2.1 4 rfl,
    (execute_captures_outcome basic_shared_state_with_value.ctor basic_shared_state.ctor
      fn_count_four (fun k : Nat => (Res.raise 9, k + 1)) 0 0 rfl rfl).2.2.2.2.2.2.2.2.1
        9 rfl⟩
/-- When no two `release()` calls overlap: the state of queued work has `ref`
2, one reference for the future and one taken by `details::queue_work`.
Whether the future is dropped before the task runs, between `execute()` and
the `release()` of the callback, or after the task: `execute()` runs on an
allocated state and returns, nothing is deleted while a reference is left,
and the state is deleted once, by whichever `release()` comes last. -/
theorem queued_state_outlives_dropped_future {E T : Type} [Inhabited T] (h : Heap E T)
    (pool : List Nat) (r : Res E T) (hr : (∃ v, r = Res.ret v) ∨ ∃ e, r = Res.raise e) :
    let q := queue_work (h, pool)
    let f : future := ⟨some h.next⟩
    let dropped := (future.dtor q.2.1 f).2
    let ran := (details.queue_work_callback q.2.1 h.next r).2
    let executed := (q.2.1.call (some h.next) fun c => shared_state.execute c r).2
    q.1 = Res.ret f ∧ q.2.2 = pool ++ [h.next] ∧
    (q.2.1.cells h.next).map (fun c => c.ref) = some 2 ∧
    -- the future is dropped, then the task runs
    (future.dtor q.2.1 f).1 = Res.ret () ∧
    (dropped.cells h.next).map (fun c => (c.ref, c.state)) = some (1, completion.not_ready) ∧
    dropped.freed = h.freed ∧
    (dropped.call (some h.next) fun c => shared_state.execute c r).1 = Res.ret () ∧
    ((dropped.call (some h.next) fun c => shared_state.execute c r).2.cells h.next).map
      (fun c => c.ref) = some 1 ∧
    (details.queue_work_callback dropped h.next r).1 = Res.ret () ∧
    (details.queue_work_callback dropped h.next r).2.cells h.next = none ∧
    (details.queue_work_callback dropped h.next r).2.freed = h.freed ++ [h.next] ∧
    -- the task runs, then the future is dropped
    (details.queue_work_callback q.2.1 h.next r).1 = Res.ret () ∧
    (ran.cells h.next).map (fun c => c.ref) = some 1 ∧
    ran.freed = h.freed ∧
    (future.dtor ran f).1 = Res.ret () ∧
    (future.dtor ran f).2.cells h.next = none ∧
    (future.dtor ran f).2.freed = h.freed ++ [h.next] ∧
    -- the future is dropped between `execute()` and `release()`
    (q.2.1.call (some h.next) fun c => shared_state.execute c r).1 = Res.ret () ∧
    (executed.cells h.next).map (fun c => c.ref) = some 2 ∧
    ((future.dtor executed f).2.cells h.next).map (fun c => c.ref) = some 1 ∧
    (future.dtor executed f).2.freed = h.freed ∧
    (Heap.release (future.dtor executed f).2 (some h.next)).1 = Res.ret () ∧
    (Heap.release (future.dtor executed f).2 (some h.next)).2.cells h.next = none ∧
    (Heap.release (future.dtor executed f).2 (some h.next)).2.freed = h.freed ++ [h.next] := by
  obtain ⟨h1, hq, hcell, -, -, hfreed, -⟩ := queue_work_spec (E := E) h pool
  rcases hr with ⟨v, rfl⟩ | ⟨e, rfl⟩ <;>
    simp [hq, hcell, hfreed, future.dtor, details.queue_work_callback, Heap.call, Heap.release,
      Heap.write, Heap.delete, Res.seq, shared_state.execute, basic_shared_state_with_value.set,
      basic_shared_state_with_value.set_exception, basic_shared_state.set_exception, wrap32]

/-- The lemma above on an empty store and a callable returning 4. -/
theorem queued_state_outlives_dropped_future_witness :
    (queue_work ((Heap.empty : Heap Nat Nat), [])).2.2 = [] ++ [0] ∧
    (details.queue_work_callback
      (future.dtor (queue_work ((Heap.empty : Heap Nat Nat), [])).2.1 ⟨some 0⟩).2 0
        (Res.ret 4)).2.freed = [] ++ [0] ∧
    (future.dtor (details.queue_work_callback
      (queue_work ((Heap.empty : Heap Nat Nat), [])).2.1 0 (Res.ret 4)).2 ⟨some 0⟩).2.freed =
        [] ++ [0] :=
  ⟨(queued_state_outlives_dropped_future (Heap.empty : Heap Nat Nat) [] (Res.ret 4)
      (Or.inl ⟨4, rfl⟩)).2.1,
    (queued_state_outlives_dropped_future (Heap.empty : Heap Nat Nat) [] (Res.ret 4)
      (Or.inl ⟨4, rfl⟩)).2.2.2.2.2.2.2.2.2.2.1,
    (queued_state_outlives_dropped_future (Heap.empty : Heap Nat Nat) [] (Res.ret 4)
      (Or.inl ⟨4, rfl⟩)).2.2.2.2.2.2.2.2.2.2.2.2.2.2.2.2.1⟩
theorem release_is_test_then_dec {E T : Type} (h : Heap E T) (state : Option Nat) :
    Heap.release h state =
      Res.seq (Heap.release_test h state) fun deleted h1 =>
        if deleted then (Res.ret (), h1) else Heap.release_dec h1 state := by
  cases state with
  | none => rfl
  | some a =>
    cases hc : h.cells a with
    | none => simp [Heap.release, Heap.release_test, hc, Res.seq]
    | some c =>
      by_cases href : c.ref = 1
      · simp [Heap.release, Heap.release_test, hc, href, Res.seq]
      · simp [Heap.release, Heap.release_test, Heap.release_dec, Heap.call, hc, href, Res.seq]

/-- C16: the code at the failing input.  The task has run `execute()`; the
state has `ref` 2, held by the future and by the callback.  The destructor of
the future and the `release()` of the callback run side by side: both make
the test `ref == 1` while `ref` is 2, then both decrement.  `ref` ends 0, no
`delete this` has run, and no handle is left to run one.  One `release()`
after the other deletes the state once. -/
theorem overlapping_releases_never_delete :
    (executed_heap.cells 0).map (fun c => (c.ref, c.state)) =
      some (2, completion.has_value) ∧
    (Heap.release_test executed_heap (some 0)).1 = Res.ret false ∧
    (Heap.release_test (Heap.release_test executed_heap (some 0)).2 (some 0)).1 =
      Res.ret false ∧
    (Heap.release_dec
      (Heap.release_test (Heap.release_test executed_heap (some 0)).2 (some 0)).2
      (some 0)).1 = Res.ret () ∧
    (Heap.release_dec (Heap.release_dec
      (Heap.release_test (Heap.release_test executed_heap (some 0)).2 (some 0)).2
      (some 0)).2 (some 0)).1 = Res.ret () ∧
    ((Heap.release_dec (Heap.release_dec
      (Heap.release_test (Heap.release_test executed_heap (some 0)).2 (some 0)).2
      (some 0)).2 (some 0)).2.cells 0).map (fun c => c.ref) = some 0 ∧
    (Heap.release_dec (Heap.release_dec
      (Heap.release_test (Heap.release_test executed_heap (some 0)).2 (some 0)).2
      (some 0)).2 (some 0)).2.freed = [] ∧
    (Heap.release (Heap.release executed_heap (some 0)).2 (some 0)).2.freed = [0] ∧
    (Heap.release (Heap.release executed_heap (some 0)).2 (some 0)).2.cells 0 = none := by
  decide

open net in
theorem send_loop_spec (os : Nat → Int → Int) (len : Nat)
    (hos : ∀ n bytes, 1 ≤ bytes →
      os n bytes = SOCKET_ERROR ∨ (0 ≤ os n bytes ∧ os n bytes ≤ bytes)) :
    ∀ (fuel : Nat) (ptr : Int) (n : Nat), 0 ≤ ptr → ptr ≤ len → (len : Int) - ptr < fuel →
      ∃ r calls, send_loop os len fuel ptr n = some (r, calls) ∧
        (∀ c ∈ calls, c.bytes = min ((len : Int) - c.ptr) 1048576 ∧ 1 ≤ c.bytes ∧
          c.bytes ≤ 1048576 ∧ c.ptr + c.bytes ≤ len) ∧
        (∀ pre c post, calls = pre ++ c :: post →
          c.ptr = ptr + (pre.map SendCall.sent).sum ∧ c.sent = os (n + pre.length) c.bytes ∧
          (∀ d ∈ pre, 1 ≤ d.sent) ∧
          ((c.sent = 0 ∨ c.sent = SOCKET_ERROR) → post = [] ∧ r = Res.raise std_exception.mk)) ∧
        (r = Res.ret () →
          ptr + (calls.map SendCall.sent).sum = len ∧ ∀ c ∈ calls, 1 ≤ c.sent) ∧
        (r = Res.ret () ∨ (r = Res.raise std_exception.mk ∧
          ∃ pre c, calls = pre ++ [c] ∧ (c.sent = 0 ∨ c.sent = SOCKET_ERROR))) := by
  intro fuel
  induction fuel with
  | zero =>
    intro ptr n h0 hle hfuel
    exfalso
    simp at hfuel
    omega
  | succ fuel ih =>
    intro ptr n h0 hle hfuel
    by_cases hlt : ptr < (len : Int)
    · have hb1 : 1 ≤ min ((len : Int) - ptr) 1048576 := by omega
      have hb2 : min ((len : Int) - ptr) 1048576 ≤ 1048576 := by omega
      have hb3 : ptr + min ((len : Int) - ptr) 1048576 ≤ len := by omega
      by_cases hfail : os n (min ((len : Int) - ptr) 1048576) = SOCKET_ERROR ∨
          os n (min ((len : Int) - ptr) 1048576) = 0
      · refine ⟨Res.raise std_exception.mk,
          [(⟨ptr, min ((len : Int) - ptr) 1048576, os n (min ((len : Int) - ptr) 1048576)⟩ : SendCall)],
          by simp [send_loop, hlt, hfail], ?_, ?_, ?_, ?_⟩
        · intro c hc
          simp only [List.mem_singleton] at hc
          subst hc
          exact ⟨rfl, hb1, hb2, hb3⟩
        · intro pre c post hdec
          cases pre with
          | nil =>
            simp only [List.nil_append, List.cons.injEq] at hdec
            obtain ⟨hc, hpost⟩ := hdec
            subst hc
            simp [hpost.symm]
          | cons d pre =>
            simp at hdec
        · intro hr
          simp at hr
        · exact Or.inr ⟨rfl, [], _, rfl, by
            rcases hfail with h | h
            · exact Or.inr h
            · exact Or.inl h⟩
      · have hsent : 1 ≤ os n (min ((len : Int) - ptr) 1048576) ∧
            os n (min ((len : Int) - ptr) 1048576) ≤ min ((len : Int) - ptr) 1048576 := by
          rcases hos n (min ((len : Int) - ptr) 1048576) hb1 with h | ⟨h1, h2⟩
          · exact absurd (Or.inl h) hfail
          · refine ⟨?_, h2⟩
            have : os n (min ((len : Int) - ptr) 1048576) ≠ 0 := fun h => hfail (Or.inr h)
            omega
        obtain ⟨r, calls, hrun, hp1, hp2, hp3, hp4⟩ :=
          ih (ptr + os n (min ((len : Int) - ptr) 1048576)) (n + 1) (by omega) (by omega)
            (by push_cast at hfuel ⊢; omega)
        refine ⟨r,
          (⟨ptr, min ((len : Int) - ptr) 1048576, os n (min ((len : Int) - ptr) 1048576)⟩ : SendCall) :: calls,
          by simp [send_loop, hlt, hfail, hrun], ?_, ?_, ?_, ?_⟩
        · intro c hc
          rcases List.mem_cons.mp hc with rfl | hc
          · exact ⟨rfl, hb1, hb2, hb3⟩
          · exact hp1 c hc
        · intro pre c post hdec
          cases pre with
          | nil =>
            simp only [List.nil_append, List.cons.injEq] at hdec
            obtain ⟨hc, hpost⟩ := hdec
            subst hc
            refine ⟨by simp, by simp, by simp, ?_⟩
            intro hzero
            exfalso
            simp only [SOCKET_ERROR] at hzero hfail
            omega
          | cons d pre =>
            simp only [List.cons_append, List.cons.injEq] at hdec
            obtain ⟨hd, hrest⟩ := hdec
            subst hd
            obtain ⟨q1, q2, q3, q4⟩ := hp2 pre c post hrest
            refine ⟨?_, ?_, ?_, q4⟩
            · simp only [List.map_cons, List.sum_cons]
              omega
            · rw [q2]
              congr 1
              simp only [List.length_cons]
              omega
            · intro x hx
              rcases List.mem_cons.mp hx with rfl | hx
              · exact hsent.1
              · exact q3 x hx
        · intro hr
          obtain ⟨hsum, hall⟩ := hp3 hr
          refine ⟨?_, ?_⟩
          · simp only [List.map_cons, List.sum_cons]
            omega
          · intro c hc
            rcases List.mem_cons.mp hc with rfl | hc
            · exact hsent.1
            · exact hall c hc
        · rcases hp4 with hr | ⟨hr, pre, c, hcalls, hc⟩
          · exact Or.inl hr
          · exact Or.inr ⟨hr,
              (⟨ptr, min ((len : Int) - ptr) 1048576, os n (min ((len : Int) - ptr) 1048576)⟩ : SendCall) :: pre,
              c, by simp [hcalls], hc⟩
    · have hptr : ptr = len := by omega
      refine ⟨Res.ret (), [], by simp [send_loop, hlt], ?_, ?_, ?_, Or.inl rfl⟩
      · intro c hc
        simp at hc
      · intro pre c post hdec
        simp at hdec
      · intro _
        simp [hptr]

open net in
/-- C17: `socket::send` on a socket without handle throws before any call of
`::send`.  On a socket with a handle, when every OS result is `SOCKET_ERROR`
or a count between 0 and the bytes asked for, the call ends for every fuel
above `len`: each write asks for `min(remaining, 1048576)` bytes, at least one;
each write starts where the counts reported so far add up to; the call returns
only when the counts add up to `len`; and it throws at the first result that
is 0 or `SOCKET_ERROR`, every earlier result being at least one byte. -/
theorem socket_send_writes_whole_buffer (os : Nat → Int → Int) (len fuel handle : Nat)
    (hos : ∀ n bytes, 1 ≤ bytes →
      os n bytes = SOCKET_ERROR ∨ (0 ≤ os n bytes ∧ os n bytes ≤ bytes))
    (hfuel : len < fuel) :
    (∀ k, socket.send ⟨none⟩ os len k = some (Res.raise std_exception.mk, [])) ∧
    ∃ r calls, socket.send ⟨some handle⟩ os len fuel = some (r, calls) ∧
      (∀ c ∈ calls, c.bytes = min ((len : Int) - c.ptr) 1048576 ∧ 1 ≤ c.bytes ∧
        c.bytes ≤ 1048576 ∧ c.ptr + c.bytes ≤ len) ∧
      (∀ pre c post, calls = pre ++ c :: post →
        c.ptr = (pre.map SendCall.sent).sum ∧ c.sent = os pre.length c.bytes ∧
        (∀ d ∈ pre, 1 ≤ d.sent) ∧
        ((c.sent = 0 ∨ c.sent = SOCKET_ERROR) → post = [] ∧ r = Res.raise std_exception.mk)) ∧
      (r = Res.ret () →
        (calls.map SendCall.sent).sum = len ∧ ∀ c ∈ calls, 1 ≤ c.sent) ∧
      (r = Res.ret () ∨ (r = Res.raise std_exception.mk ∧
        ∃ pre c, calls = pre ++ [c] ∧ (c.sent = 0 ∨ c.sent = SOCKET_ERROR))) :=
  ⟨fun _ => rfl, by
    simpa only [zero_add] using
      send_loop_spec os len hos fuel 0 0 (le_refl 0) (by omega) (by omega)⟩

open net in
/-- Witness for C17: 7 bytes through an OS that takes at most 3 bytes a call. -/
theorem socket_send_writes_whole_buffer_witness :
    (∀ k, socket.send ⟨none⟩ os_three 7 k = some (Res.raise std_exception.mk, [])) ∧
    ∃ r calls, socket.send ⟨some 1⟩ os_three 7 8 = some (r, calls) ∧
      (∀ c ∈ calls, c.bytes = min (((7 : Nat) : Int) - c.ptr) 1048576 ∧ 1 ≤ c.bytes ∧
        c.bytes ≤ 1048576 ∧ c.ptr + c.bytes ≤ (7 : Nat)) ∧
      (∀ pre c post, calls = pre ++ c :: post →
        c.ptr = (pre.map SendCall.sent).sum ∧ c.sent = os_three pre.length c.bytes ∧
        (∀ d ∈ pre, 1 ≤ d.sent) ∧
        ((c.sent = 0 ∨ c.sent = SOCKET_ERROR) → post = [] ∧ r = Res.raise std_exception.mk)) ∧
      (r = Res.ret () →
        (calls.map SendCall.sent).sum = (7 : Nat) ∧ ∀ c ∈ calls, 1 ≤ c.sent) ∧
      (r = Res.ret () ∨ (r = Res.raise std_exception.mk ∧
        ∃ pre c, calls = pre ++ [c] ∧ (c.sent = 0 ∨ c.sent = SOCKET_ERROR))) :=
  socket_send_writes_whole_buffer os_three 7 8 1
    (fun _ bytes hb => Or.inr (by simp only [os_three]; omega)) (by decide)

/-- Two runs of `socket::send` on 7 bytes: an OS taking 3 bytes a call, and an
OS that takes 3 bytes and then reports 0. -/
theorem socket_send_sample_runs :
    net.socket.send ⟨some 1⟩ os_three 7 8 =
      some (Res.ret (), [⟨0, 7, 3⟩, ⟨3, 4, 3⟩, ⟨6, 1, 1⟩]) ∧
    net.socket.send ⟨some 1⟩ (fun n bytes => if n = 0 then min bytes 3 else 0) 7 8 =
      some (Res.raise net.std_exception.mk, [⟨0, 7, 3⟩, ⟨3, 4, 0⟩]) := by
  decide
/-- C18: the code at the failing input.  On an antecedent that is already
resolved, a continuation that throws 9 is called once and the exception
leaves `then`: the caller gets the exception, no future; nothing is allocated
for a result and nothing is queued.  In the deferred branch the same
continuation ends in a returned future that holds the error 9. -/
theorem inline_then_lets_exception_escape :
    (future.then_ failed_world ⟨some 0⟩ fn_throw).1 = Res.raise 9 ∧
    (future.then_ failed_world ⟨some 0⟩ fn_throw).2.invoked = 1 ∧
    (future.then_ failed_world ⟨some 0⟩ fn_throw).2.pool = [] ∧
    (future.then_ failed_world ⟨some 0⟩ fn_throw).2.out.next = 0 ∧
    (future.then_ failed_world ⟨some 0⟩ fn_throw).2.out.cells 0 = none ∧
    (future.then_ sample_world ⟨some 0⟩ fn_throw).1 = Res.ret ⟨some 0⟩ ∧
    (future.then_task (then_and_set fn_throw 3) 0 ⟨some 0⟩ fn_throw).1 = Res.ret () ∧
    ((future.then_task (then_and_set fn_throw 3) 0 ⟨some 0⟩ fn_throw).2.out.cells 0).map
      (fun c => (c.state, c.ex)) = some (completion.has_error, some 9) := by
  decide

/-- C19, as stated, fails: on a range of one future whose state is
`not_ready`, `when_all` has called `get` on that future and does not return. -/
theorem when_all_blocks_on_pending_input :
    (when_all (Heap.empty : Heap Nat (List Nat)) sample_world.ante [⟨some 0⟩]).result =
      Res.block ∧
    (when_all (Heap.empty : Heap Nat (List Nat)) sample_world.ante [⟨some 0⟩]).trace =
      [Event.get ⟨some 0⟩] := by
  decide

theorem when_all_loop_blocks {E T : Type} [Inhabited T] (pre : List future) :
    ∀ (post : List future) (f : future) (list : List T) (ex : Option E) (h : Heap E T)
      (tr : List Event),
      ((pre ++ [f]).map fun g => g.state).Nodup → (∀ g ∈ pre, resolved h g) →
      (∃ a c, f.state = some a ∧ h.cells a = some c ∧ c.mtx = false ∧
        c.state = completion.not_ready) →
      ∃ h1, when_all_loop (pre ++ f :: post) list ex (h, tr) =
        (Res.block, (h1, tr ++ (pre ++ [f]).map Event.get)) := by
  induction pre with
  | nil =>
    intro post f list ex h tr _ _ hf
    obtain ⟨a, c, hfa, hc, hm, hs⟩ := hf
    exact ⟨h.write a (some c), by
      simp [when_all_loop, future.get, Heap.call, hfa, hc, basic_shared_state_with_value.get,
        hm, hs]⟩
  | cons g rest ih =>
    intro post f list ex h tr hnd hres hf
    obtain ⟨a, c, hga, hc, hm, hs⟩ := hres g (List.mem_cons_self _ _)
    obtain ⟨h1, hfr, hget⟩ := future_get_resolved h g a c hga hc hm hs
    have hnd1 := List.nodup_cons.mp
      (show (g.state :: (rest ++ [f]).map fun g => g.state).Nodup from hnd)
    have hnd0 : (∀ x ∈ rest ++ [f], ¬x.state = g.state) ∧
        ((rest ++ [f]).map fun g => g.state).Nodup :=
      ⟨fun x hx hxg => hnd1.1 (by rw [← hxg]; exact List.mem_map_of_mem _ hx), hnd1.2⟩
    have hres2 : ∀ x ∈ rest, resolved h1 x := by
      intro x hx
      obtain ⟨b, d, hb, hd, hrest⟩ := hres x (List.mem_cons_of_mem _ hx)
      have hba : b ≠ a := fun hba =>
        hnd0.1 x (List.mem_append_left _ hx) (by rw [hb, hga, hba])
      exact ⟨b, d, hb, by rw [hfr b hba, hd], hrest⟩
    have hf2 : ∃ a c, f.state = some a ∧ h1.cells a = some c ∧ c.mtx = false ∧
        c.state = completion.not_ready := by
      obtain ⟨b, d, hb, hd, hrest⟩ := hf
      have hba : b ≠ a := fun hba =>
        hnd0.1 f (List.mem_append_right _ (List.mem_singleton_self _)) (by rw [hb, hga, hba])
      exact ⟨b, d, hb, by rw [hfr b hba, hd], hrest⟩
    rcases hget with ⟨e, -, hg⟩ | ⟨-, hg⟩
    · obtain ⟨h2, hloop⟩ := ih post f list (some e) h1 (tr ++ [Event.get g]) hnd0.2 hres2 hf2
      exact ⟨h2, by simp [when_all_loop, hg, hloop]⟩
    · obtain ⟨h2, hloop⟩ := ih post f (list ++ [c.value]) ex h1 (tr ++ [Event.get g]) hnd0.2
        hres2 hf2
      exact ⟨h2, by simp [when_all_loop, hg, hloop]⟩

/-- C19, amended: `when_all` joins on the calling thread.  It calls `get` on
the futures of the range in range order before it returns, and when `f` is the
first future of the range whose state is `not_ready`, the call has made the
`get` calls up to `f` and does not return. -/
theorem when_all_joins_on_calling_thread {E T : Type} [Inhabited T] (out : Heap E (List T))
    (inp : Heap E T) (pre post : List future) (f : future)
    (hdistinct : ((pre ++ [f]).map fun g => g.state).Nodup)
    (hresolved : ∀ g ∈ pre, resolved inp g)
    (hpending : ∃ a c, f.state = some a ∧ inp.cells a = some c ∧ c.mtx = false ∧
      c.state = completion.not_ready) :
    (when_all out inp (pre ++ f :: post)).result = Res.block ∧
    (when_all out inp (pre ++ f :: post)).trace = (pre ++ [f]).map Event.get := by
  obtain ⟨h1, hloop⟩ := when_all_loop_blocks pre post f [] (none : Option E) inp [] hdistinct
    hresolved hpending
  simp [when_all, hloop, promise.get_future, promise.ctor, details.make_future, Heap.call,
    Heap.alloc, Heap.write, Res.seq]

/-- Witness for C19: the values 10 and 20 are ready, the third input is not. -/
theorem when_all_joins_on_calling_thread_witness :
    (when_all (Heap.empty : Heap Nat (List Nat)) (promise.ctor sample_values).2
      ([future.mk (some 0), future.mk (some 1)] ++ future.mk (some 2) :: [])).result =
        Res.block ∧
    (when_all (Heap.empty : Heap Nat (List Nat)) (promise.ctor sample_values).2
      ([future.mk (some 0), future.mk (some 1)] ++ future.mk (some 2) :: [])).trace =
        ([future.mk (some 0), future.mk (some 1)] ++ [future.mk (some 2)]).map Event.get :=
  when_all_joins_on_calling_thread Heap.empty (promise.ctor sample_values).2
    [future.mk (some 0), future.mk (some 1)] [] (future.mk (some 2)) (by decide)
    (by
      intro g hg
      simp only [List.mem_cons, List.mem_singleton, List.not_mem_nil, or_false] at hg
      rcases hg with rfl | rfl
      · exact ⟨0, _, rfl, rfl, rfl, by decide⟩
      · exact ⟨1, _, rfl, rfl, rfl, by decide⟩)
    ⟨2, _, rfl, rfl, rfl, rfl⟩

/-- C20: `make_ready_future(v)` returns a future on a state allocated by the
call, with `ref` 1, `has_value`, no error and the value `v`, whose `get`
returns `v`; the void overload returns a future on a fresh state with `ref` 1
and `has_value`, whose `wait` returns.  No other cell changes and nothing is
deleted. -/
theorem make_ready_future_sole_owner {E T : Type} [Inhabited T] (h : Heap E T)
    (hv : Heap E Unit) (v : T) :
    (make_ready_future h v).1 = Res.ret ⟨some h.next⟩ ∧
    (make_ready_future h v).2.cells h.next =
      some { ref := 1, state := completion.has_value, ex := none, mtx := false, value := v } ∧
    (∀ q, q ≠ h.next → (make_ready_future h v).2.cells q = h.cells q) ∧
    (make_ready_future h v).2.freed = h.freed ∧
    (future.get (make_ready_future h v).2 ⟨some h.next⟩).1 = Res.ret v ∧
    (make_ready_future_void hv).1 = Res.ret ⟨some hv.next⟩ ∧
    (make_ready_future_void hv).2.cells hv.next =
      some { ref := 1, state := completion.has_value, ex := none, mtx := false, value := () } ∧
    (∀ q, q ≠ hv.next → (make_ready_future_void hv).2.cells q = hv.cells q) ∧
    (make_ready_future_void hv).2.freed = hv.freed ∧
    (future.wait (make_ready_future_void hv).2 ⟨some hv.next⟩).1 = Res.ret () := by
  obtain ⟨h1, hmk, hcell, hfr, -, hfreed, -⟩ := make_ready_future_spec (E := E) h v
  refine ⟨by rw [hmk], by rw [hmk]; exact hcell, by rw [hmk]; exact hfr, by rw [hmk]; exact hfreed,
    ?_, ?_, ?_, ?_, ?_, ?_⟩
  · simp [hmk, future.get, Heap.call, hcell, basic_shared_state_with_value.get]
  all_goals
    simp +contextual [make_ready_future_void, promise.set_void, details.make_future, Heap.call,
      Heap.alloc, Heap.write, Heap.release, Res.seq, basic_shared_state_with_value.ctor,
      basic_shared_state.ctor, basic_shared_state_with_value.addref, basic_shared_state.addref,
      basic_shared_state.set, wrap32, future.wait, basic_shared_state_with_value.wait,
      basic_shared_state.wait]

end cs477
